import Mathlib

/-!
# thc: a typed heterogeneous container

A shallow embedding of `thc.go` (package `thc`) and theorems about its four
operations `Store`, `Fetch`, `Update` and `Remove`.

Modelling conventions.

* Go values are represented by what `any(x)` holds: either the nil interface
  value, or a non-interface value that determines its dynamic type.  A value of
  a static type `T` is represented by its `any` conversion; `HasType T v` says
  that `v` is the conversion of some value of type `T`.
* `map[string]any` is a finite association list with pairwise distinct keys.
* `uuid.NewString()` is an external source of tokens: each call site receives
  the generated string as an extra argument.
* The operations run sequentially, so `Lock`/`Unlock` have no effect on the
  result and are not represented.
* A pointer receiver `c *container` is state passing: every operation returns
  the container after the call; `Remove` also returns the key it was given a
  pointer to.
* A registered audit callback is a `func()` owned by the caller.  It is
  represented by a number naming it, and each operation reports the callbacks
  it invoked, in order.  Callbacks are taken to be non-nil and not to call back
  into the container.
* What a client does with a container over time is a list of `Call`s, run one
  after the other by `runCalls`.
-/

namespace thc

/-! ## Go values -/

/-- Dynamic types: the non-interface types a stored value can have. -/
inductive DynType where
  | int
  | string
  | bool
  | container
  | ptrContainer
  | named (name : String)
  deriving DecidableEq, Repr

/-- Non-interface Go values.  `containerVal` is a value of the struct type
`container` (a copy such as `*c`), of which the two token fields are kept; its
map and hook fields are references.  `containerPtr` is a `*container`. -/
inductive Dyn where
  | int (i : Int)
  | str (s : String)
  | bool (b : Bool)
  | containerVal (identity removedID : String)
  | containerPtr (addr : Nat)
  | named (name : String) (repr : Nat)
  deriving DecidableEq, Repr

/-- Dynamic type of a non-interface value. -/
def Dyn.type : Dyn → DynType
  | .int _ => .int
  | .str _ => .string
  | .bool _ => .bool
  | .containerVal _ _ => .container
  | .containerPtr _ => .ptrContainer
  | .named n _ => .named n

/-- Zero value of a non-interface type. -/
def DynType.zero : DynType → Dyn
  | .int => .int 0
  | .string => .str ""
  | .bool => .bool false
  | .container => .containerVal "" ""
  | .ptrContainer => .containerPtr 0
  | .named n => .named n 0

/-- Values of type `any`: the nil interface value, or a boxed non-interface
value carrying its dynamic type. -/
inductive GoAny where
  | nil
  | box (d : Dyn)
  deriving DecidableEq, Repr

/-- Static types a type parameter `T` can be instantiated with: a
non-interface type, or an interface type, given by the dynamic types that
implement it. -/
inductive GoType where
  | concrete (t : DynType)
  | iface (name : String) (impl : DynType → Bool)

/-- The interface type `any`, implemented by every type. -/
def GoType.any : GoType := .iface "any" (fun _ => true)

/-- Whether a value of dynamic type `t` passes the type assertion to `T`: the
dynamic type is identical to a non-interface `T`, or implements an interface
`T`. -/
def GoType.admits : GoType → DynType → Bool
  | .concrete t', t => decide (t = t')
  | .iface _ impl, t => impl t

/-- Zero value `var zero T`. -/
def GoType.zero : GoType → GoAny
  | .concrete t => .box t.zero
  | .iface _ _ => .nil

/-- The type assertion `casted, ok := val.(T)`: `some casted` when `ok`.  It
fails on the nil interface value whatever `T` is. -/
def GoType.assert (T : GoType) : GoAny → Option GoAny
  | .nil => none
  | .box d => if T.admits d.type then some (.box d) else none

/-- `v` represents a value of static type `T`: a value of that very type when
`T` is not an interface, and nil or a value of an implementing type when it
is. -/
def HasType : GoType → GoAny → Prop
  | .concrete t, v => ∃ d, v = .box d ∧ d.type = t
  | .iface _ _, .nil => True
  | .iface _ impl, .box d => impl d.type = true

/-! ## Go maps `map[string]any` -/

/-- Assignment `m[k] = v` on the entry list: overwrite in place, else append. -/
def setEntries : List (String × GoAny) → String → GoAny → List (String × GoAny)
  | [], k, v => [(k, v)]
  | (k', v') :: rest, k, v =>
      if k' = k then (k, v) :: rest else (k', v') :: setEntries rest k v

/-- Lookup `v, ok := m[k]` on the entry list. -/
def getEntries : List (String × GoAny) → String → Option GoAny
  | [], _ => none
  | (k', v') :: rest, k => if k' = k then some v' else getEntries rest k

/-- Builtin `delete(m, k)` on the entry list: drop the entry under `k`, if any. -/
def deleteEntries : List (String × GoAny) → String → List (String × GoAny)
  | [], _ => []
  | (k', v') :: rest, k => if k' = k then rest else (k', v') :: deleteEntries rest k

theorem keys_setEntries (es : List (String × GoAny)) (k : String) (v : GoAny) :
    (setEntries es k v).map Prod.fst =
      if k ∈ es.map Prod.fst then es.map Prod.fst else es.map Prod.fst ++ [k] := by
  induction es with
  | nil => simp [setEntries]
  | cons e rest ih =>
    obtain ⟨k', v'⟩ := e
    by_cases h : k' = k
    · subst h; simp [setEntries]
    · have h' : ¬ k = k' := fun e => h e.symm
      simp only [setEntries, h, if_false, List.map_cons, ih, List.mem_cons, h', false_or]
      split <;> simp

theorem nodup_setEntries (es : List (String × GoAny)) (k : String) (v : GoAny)
    (h : (es.map Prod.fst).Nodup) : ((setEntries es k v).map Prod.fst).Nodup := by
  rw [keys_setEntries]
  split
  · exact h
  · rename_i hk
    exact List.Nodup.append h (List.nodup_singleton k) (by simpa using hk)

theorem keys_deleteEntries_sublist (es : List (String × GoAny)) (k : String) :
    ((deleteEntries es k).map Prod.fst).Sublist (es.map Prod.fst) := by
  induction es with
  | nil => simp [deleteEntries]
  | cons e rest ih =>
    obtain ⟨k', v'⟩ := e
    by_cases h : k' = k
    · simp [deleteEntries, h]
    · simpa [deleteEntries, h] using ih

theorem nodup_deleteEntries (es : List (String × GoAny)) (k : String)
    (h : (es.map Prod.fst).Nodup) : ((deleteEntries es k).map Prod.fst).Nodup :=
  h.sublist (keys_deleteEntries_sublist es k)

/-- A Go map from strings to `any`: entries with pairwise distinct keys. -/
structure GoMap where
  entries : List (String × GoAny)
  nodup : (entries.map Prod.fst).Nodup

instance : DecidableEq GoMap := fun a b =>
  match a, b with
  | ⟨ea, _⟩, ⟨eb, _⟩ =>
    if h : ea = eb then isTrue (by subst h; rfl)
    else isFalse (fun e => h (congrArg GoMap.entries e))

/-- The map built by `make(map[string]any)`. -/
def GoMap.empty : GoMap := ⟨[], List.nodup_nil⟩

/-- Go `len(m)`. -/
def GoMap.len (m : GoMap) : Nat := m.entries.length

/-- Go `v, ok := m[k]`: `some v` when `ok`. -/
def GoMap.get (m : GoMap) (k : String) : Option GoAny := getEntries m.entries k

/-- Go `m[k] = v`. -/
def GoMap.set (m : GoMap) (k : String) (v : GoAny) : GoMap :=
  ⟨setEntries m.entries k v, nodup_setEntries m.entries k v m.nodup⟩

/-- Go `delete(m, k)`. -/
def GoMap.delete (m : GoMap) (k : String) : GoMap :=
  ⟨deleteEntries m.entries k, nodup_deleteEntries m.entries k m.nodup⟩

/-! ### Lookup and length after an assignment or a deletion -/

theorem getEntries_isSome_iff (es : List (String × GoAny)) (k : String) :
    (getEntries es k).isSome = true ↔ k ∈ es.map Prod.fst := by
  induction es with
  | nil => simp [getEntries]
  | cons e rest ih =>
    obtain ⟨k', v'⟩ := e
    by_cases h : k' = k
    · simp [getEntries, h]
    · have h' : ¬ k = k' := fun e => h e.symm
      simp only [getEntries, h, if_false, ih, List.map_cons, List.mem_cons, h', false_or]

theorem getEntries_setEntries (es : List (String × GoAny)) (k : String) (v : GoAny)
    (k' : String) :
    getEntries (setEntries es k v) k' = if k' = k then some v else getEntries es k' := by
  induction es with
  | nil =>
    by_cases h : k = k'
    · simp [setEntries, getEntries, h]
    · have h' : ¬ k' = k := fun e => h e.symm
      simp [setEntries, getEntries, h, h']
  | cons e rest ih =>
    obtain ⟨k0, v0⟩ := e
    by_cases h0 : k0 = k
    · subst h0
      by_cases h : k0 = k'
      · simp [setEntries, getEntries, h]
      · have h' : ¬ k' = k0 := fun e => h e.symm
        simp [setEntries, getEntries, h, h']
    · by_cases h : k0 = k'
      · subst h
        simp [setEntries, getEntries, h0]
      · simp [setEntries, getEntries, h0, h, ih]

theorem getEntries_eq_none_of_not_mem (es : List (String × GoAny)) (k : String)
    (h : k ∉ es.map Prod.fst) : getEntries es k = none := by
  cases hg : getEntries es k with
  | none => rfl
  | some x =>
    have : (getEntries es k).isSome = true := by simp [hg]
    exact absurd ((getEntries_isSome_iff es k).1 this) h

theorem getEntries_deleteEntries (es : List (String × GoAny)) (k k' : String)
    (hn : (es.map Prod.fst).Nodup) :
    getEntries (deleteEntries es k) k' = if k' = k then none else getEntries es k' := by
  induction es with
  | nil => simp [deleteEntries, getEntries]
  | cons e rest ih =>
    obtain ⟨k0, v0⟩ := e
    simp only [List.map_cons, List.nodup_cons] at hn
    by_cases h0 : k0 = k
    · subst h0
      by_cases h : k' = k0
      · subst h
        simp [deleteEntries, getEntries_eq_none_of_not_mem rest k' hn.1]
      · have h' : ¬ k0 = k' := fun e => h e.symm
        simp [deleteEntries, getEntries, h, h']
    · by_cases h : k0 = k'
      · subst h
        simp [deleteEntries, getEntries, h0]
      · simp [deleteEntries, getEntries, h0, h, ih hn.2]

theorem length_setEntries (es : List (String × GoAny)) (k : String) (v : GoAny) :
    (setEntries es k v).length =
      if (getEntries es k).isSome then es.length else es.length + 1 := by
  induction es with
  | nil => simp [setEntries, getEntries]
  | cons e rest ih =>
    obtain ⟨k0, v0⟩ := e
    by_cases h0 : k0 = k
    · simp [setEntries, getEntries, h0]
    · simp only [setEntries, getEntries, h0, if_false, List.length_cons, ih]
      split <;> rfl

theorem deleteEntries_absent (es : List (String × GoAny)) (k : String)
    (h : getEntries es k = none) : deleteEntries es k = es := by
  induction es with
  | nil => rfl
  | cons e rest ih =>
    obtain ⟨k0, v0⟩ := e
    by_cases h0 : k0 = k
    · simp [getEntries, h0] at h
    · simp only [getEntries, h0, if_false] at h
      simp [deleteEntries, h0, ih h]

theorem length_deleteEntries_present (es : List (String × GoAny)) (k : String)
    (h : (getEntries es k).isSome = true) :
    (deleteEntries es k).length + 1 = es.length := by
  induction es with
  | nil => simp [getEntries] at h
  | cons e rest ih =>
    obtain ⟨k0, v0⟩ := e
    by_cases h0 : k0 = k
    · simp [deleteEntries, h0]
    · simp only [getEntries, h0, if_false] at h
      simp [deleteEntries, h0, ih h]

theorem GoMap.get_empty (k : String) : GoMap.empty.get k = none := rfl

theorem GoMap.len_empty : GoMap.empty.len = 0 := rfl

theorem GoMap.get_set (m : GoMap) (k : String) (v : GoAny) (k' : String) :
    (m.set k v).get k' = if k' = k then some v else m.get k' :=
  getEntries_setEntries m.entries k v k'

theorem GoMap.get_set_self (m : GoMap) (k : String) (v : GoAny) :
    (m.set k v).get k = some v := by
  rw [GoMap.get_set]; simp

theorem GoMap.get_delete (m : GoMap) (k k' : String) :
    (m.delete k).get k' = if k' = k then none else m.get k' :=
  getEntries_deleteEntries m.entries k k' m.nodup

theorem GoMap.len_set (m : GoMap) (k : String) (v : GoAny) :
    (m.set k v).len = if (m.get k).isSome then m.len else m.len + 1 :=
  length_setEntries m.entries k v

theorem GoMap.len_delete_present (m : GoMap) (k : String) (h : (m.get k).isSome = true) :
    (m.delete k).len + 1 = m.len :=
  length_deleteEntries_present m.entries k h

theorem GoMap.delete_absent (m : GoMap) (k : String) (h : m.get k = none) :
    m.delete k = m := by
  cases m with
  | mk es hn =>
    have := deleteEntries_absent es k h
    simp only [GoMap.delete]
    congr

/-! ## The container, its keys and its errors -/

/-- Modelled from the spec: the error values of package `thc_errs`, which
`thc.go` imports and returns and whose source is not at hand.  Its six
variables are taken to be the six distinct error kinds of the error taxonomy: `ErrStoreSelf` is SelfStorageError, `ErrDeletedValue` is
DeletedValueError, `ErrIdentMismatch` is IdentityMismatchError,
`ErrValNotFound` is ValueNotFoundError, `ErrTypeCast` is TypeCastError and
`ErrMissingValue` is MissingValueError. -/
inductive ThcErr where
  | ErrStoreSelf
  | ErrDeletedValue
  | ErrIdentMismatch
  | ErrValNotFound
  | ErrTypeCast
  | ErrMissingValue
  deriving DecidableEq, Repr

/-- The type `FuncMap map[string]func()`: `none` is the nil map, and a
callback is represented by a number naming it. -/
abbrev FuncMap := Option (List (String × Nat))

/-- Lookup of a name among the entries of a non-nil `FuncMap`. -/
def lookupHook : List (String × Nat) → String → Option Nat
  | [], _ => none
  | (n, fn) :: rest, name => if n = name then some fn else lookupHook rest name

/-- Go `fn, ok := m[name]` on a `FuncMap`: `some fn` when `ok`; a nil map has
no entry. -/
def FuncMap.get : FuncMap → String → Option Nat
  | none, _ => none
  | some es, name => lookupHook es name

/-- The statement `if fn, ok := c.auditHook[name]; ok { fn() }`: the callbacks
it invokes. -/
def callHook (m : FuncMap) (name : String) : List Nat :=
  match m.get name with
  | some fn => [fn]
  | none => []

/-- The struct `container` (its mutex apart). -/
structure container where
  identity : String
  removedID : String
  data : GoMap
  auditHook : FuncMap
  deriving DecidableEq

/-- The struct `Key[T]`; the type parameter is not stored. -/
structure Key (T : GoType) where
  identity : String
  mapKey : String
  deriving DecidableEq

/-- Zero value `var zero Key[T]`. -/
def Key.zero (T : GoType) : Key T := ⟨"", ""⟩

/-- Method `Len`. -/
def container.Len (c : container) : Nat := c.data.len

/-- Method `String`; `strconv.Itoa` is the decimal rendering. -/
def container.String (c : container) : String := "Length: " ++ Nat.repr c.Len

/-- Function `NewTHC`; `identity` and `removedID` are the results of its two
`uuid.NewString()` calls. -/
def NewTHC (handler : FuncMap) (identity removedID : String) : container :=
  { identity := identity, removedID := removedID, data := GoMap.empty, auditHook := handler }

/-- The guard that opens `Store` and `Update`:
`switch any(input).(type) { case container: if any(input).(container).identity == c.identity ...`.
It holds when the dynamic type of `input` is the struct type `container` and
its `identity` field equals that of `c`. -/
def selfStored (c : container) (input : GoAny) : Bool :=
  match input with
  | .box (.containerVal identity _) => decide (identity = c.identity)
  | _ => false

/-- What a `Store` call leaves: the container, the two return values and the
callbacks invoked. -/
structure StoreResult (T : GoType) where
  c : container
  key : Key T
  err : Option ThcErr
  called : List Nat
  deriving DecidableEq

/-- What a `Fetch` call leaves. -/
structure FetchResult where
  c : container
  val : GoAny
  err : Option ThcErr
  called : List Nat
  deriving DecidableEq

/-- What an `Update` call leaves. -/
structure UpdateResult where
  c : container
  err : Option ThcErr
  called : List Nat
  deriving DecidableEq

/-- What a `Remove` call leaves; `key` is the key behind the pointer argument
after the call. -/
structure RemoveResult (T : GoType) where
  c : container
  key : Key T
  err : Option ThcErr
  called : List Nat
  deriving DecidableEq

/-- Function `Store[T]`; `newKey` is the result of its `uuid.NewString()` call. -/
def Store (T : GoType) (c : container) (input : GoAny) (newKey : String) : StoreResult T :=
  if selfStored c input then
    { c := c, key := Key.zero T, err := some .ErrStoreSelf, called := [] }
  else
    { c := { c with data := c.data.set newKey input },
      key := { identity := c.identity, mapKey := newKey },
      err := none,
      called := callHook c.auditHook "Store" }

/-- Function `Fetch[T]`. -/
def Fetch (T : GoType) (c : container) (key : Key T) : FetchResult :=
  if key.identity = c.removedID then
    { c := c, val := T.zero, err := some .ErrDeletedValue, called := [] }
  else if c.identity ≠ key.identity then
    { c := c, val := T.zero, err := some .ErrIdentMismatch, called := [] }
  else
    match c.data.get key.mapKey with
    | none => { c := c, val := T.zero, err := some .ErrValNotFound, called := [] }
    | some val =>
      match T.assert val with
      | none => { c := c, val := T.zero, err := some .ErrTypeCast, called := [] }
      | some casted =>
        { c := c, val := casted, err := none, called := callHook c.auditHook "Fetch" }

/-- Function `Update[T]`. -/
def Update (T : GoType) (c : container) (key : Key T) (input : GoAny) : UpdateResult :=
  if selfStored c input then
    { c := c, err := some .ErrStoreSelf, called := [] }
  else if key.identity = c.removedID then
    { c := c, err := some .ErrDeletedValue, called := [] }
  else if c.identity ≠ key.identity then
    { c := c, err := some .ErrIdentMismatch, called := [] }
  else
    { c := { c with data := c.data.set key.mapKey input },
      err := none,
      called := callHook c.auditHook "Update" }

/-- Function `Remove[T]`. -/
def Remove (T : GoType) (c : container) (key : Key T) : RemoveResult T :=
  if key.identity = c.removedID then
    { c := c, key := key, err := some .ErrDeletedValue, called := [] }
  else if c.identity ≠ key.identity then
    { c := c, key := key, err := some .ErrIdentMismatch, called := [] }
  else
    match c.data.get key.mapKey with
    | none => { c := c, key := key, err := some .ErrMissingValue, called := [] }
    | some _ =>
      { c := { c with data := c.data.delete key.mapKey },
        key := { key with identity := c.removedID },
        err := none,
        called := callHook c.auditHook "Remove" }

/-- The keys of a Go map, in entry order. -/
def GoMap.keys (m : GoMap) : List String := m.entries.map Prod.fst

/-! ## Series of calls -/

/-- One call made by a client on a container: the operation and its
arguments, for `Store` also the key its `uuid.NewString()` call hands out. -/
inductive Call where
  | store (T : GoType) (input : GoAny) (newKey : String)
  | fetch (T : GoType) (key : Key T)
  | update (T : GoType) (key : Key T) (input : GoAny)
  | remove (T : GoType) (key : Key T)
  | len
  | string

/-- The container after one call.  `Len` and `String` only read it. -/
def Call.run (c : container) : Call → container
  | .store T input newKey => (Store T c input newKey).c
  | .fetch T key => (Fetch T c key).c
  | .update T key input => (Update T c key input).c
  | .remove T key => (Remove T c key).c
  | .len => c
  | .string => c

/-- The container after a series of calls, made one after the other. -/
def runCalls (c : container) : List Call → container
  | [] => c
  | call :: rest => runCalls (call.run c) rest

/-! ## Each operation, branch by branch -/

theorem Store_of_self {T : GoType} {c : container} {v : GoAny} (k : String)
    (h : selfStored c v = true) :
    Store T c v k = { c := c, key := Key.zero T, err := some .ErrStoreSelf, called := [] } := by
  simp [Store, h]

theorem Store_of_not_self {T : GoType} {c : container} {v : GoAny} (k : String)
    (h : selfStored c v = false) :
    Store T c v k =
      { c := { c with data := c.data.set k v },
        key := { identity := c.identity, mapKey := k },
        err := none,
        called := callHook c.auditHook "Store" } := by
  simp [Store, h]

theorem Store_err_none_iff (T : GoType) (c : container) (v : GoAny) (k : String) :
    (Store T c v k).err = none ↔ selfStored c v = false := by
  cases h : selfStored c v <;> simp [Store, h]

theorem Fetch_of_tombstoned {T : GoType} {c : container} {key : Key T}
    (h : key.identity = c.removedID) :
    Fetch T c key = { c := c, val := T.zero, err := some .ErrDeletedValue, called := [] } := by
  simp [Fetch, h]

theorem Fetch_of_mismatch {T : GoType} {c : container} {key : Key T}
    (h1 : key.identity ≠ c.removedID) (h2 : key.identity ≠ c.identity) :
    Fetch T c key = { c := c, val := T.zero, err := some .ErrIdentMismatch, called := [] } := by
  have h2' : ¬ c.identity = key.identity := fun e => h2 e.symm
  simp [Fetch, h1, h2']

theorem Fetch_of_absent {T : GoType} {c : container} {key : Key T}
    (h1 : key.identity ≠ c.removedID) (h2 : key.identity = c.identity)
    (h3 : c.data.get key.mapKey = none) :
    Fetch T c key = { c := c, val := T.zero, err := some .ErrValNotFound, called := [] } := by
  simp [Fetch, h1, h2.symm, h3]

theorem Fetch_of_cast_failure {T : GoType} {c : container} {key : Key T} {v : GoAny}
    (h1 : key.identity ≠ c.removedID) (h2 : key.identity = c.identity)
    (h3 : c.data.get key.mapKey = some v) (h4 : T.assert v = none) :
    Fetch T c key = { c := c, val := T.zero, err := some .ErrTypeCast, called := [] } := by
  simp [Fetch, h1, h2.symm, h3, h4]

theorem Fetch_of_cast {T : GoType} {c : container} {key : Key T} {v casted : GoAny}
    (h1 : key.identity ≠ c.removedID) (h2 : key.identity = c.identity)
    (h3 : c.data.get key.mapKey = some v) (h4 : T.assert v = some casted) :
    Fetch T c key =
      { c := c, val := casted, err := none, called := callHook c.auditHook "Fetch" } := by
  simp [Fetch, h1, h2.symm, h3, h4]

theorem Update_of_self {T : GoType} {c : container} (key : Key T) {w : GoAny}
    (h : selfStored c w = true) :
    Update T c key w = { c := c, err := some .ErrStoreSelf, called := [] } := by
  simp [Update, h]

theorem Update_of_tombstoned {T : GoType} {c : container} {key : Key T} {w : GoAny}
    (h0 : selfStored c w = false) (h : key.identity = c.removedID) :
    Update T c key w = { c := c, err := some .ErrDeletedValue, called := [] } := by
  simp [Update, h0, h]

theorem Update_of_mismatch {T : GoType} {c : container} {key : Key T} {w : GoAny}
    (h0 : selfStored c w = false) (h1 : key.identity ≠ c.removedID)
    (h2 : key.identity ≠ c.identity) :
    Update T c key w = { c := c, err := some .ErrIdentMismatch, called := [] } := by
  have h2' : ¬ c.identity = key.identity := fun e => h2 e.symm
  simp [Update, h0, h1, h2']

theorem Update_of_owned {T : GoType} {c : container} {key : Key T} {w : GoAny}
    (h0 : selfStored c w = false) (h1 : key.identity ≠ c.removedID)
    (h2 : key.identity = c.identity) :
    Update T c key w =
      { c := { c with data := c.data.set key.mapKey w },
        err := none,
        called := callHook c.auditHook "Update" } := by
  simp [Update, h0, h1, h2.symm]

theorem Remove_of_tombstoned {T : GoType} {c : container} {key : Key T}
    (h : key.identity = c.removedID) :
    Remove T c key = { c := c, key := key, err := some .ErrDeletedValue, called := [] } := by
  simp [Remove, h]

theorem Remove_of_mismatch {T : GoType} {c : container} {key : Key T}
    (h1 : key.identity ≠ c.removedID) (h2 : key.identity ≠ c.identity) :
    Remove T c key = { c := c, key := key, err := some .ErrIdentMismatch, called := [] } := by
  have h2' : ¬ c.identity = key.identity := fun e => h2 e.symm
  simp [Remove, h1, h2']

theorem Remove_of_absent {T : GoType} {c : container} {key : Key T}
    (h1 : key.identity ≠ c.removedID) (h2 : key.identity = c.identity)
    (h3 : c.data.get key.mapKey = none) :
    Remove T c key = { c := c, key := key, err := some .ErrMissingValue, called := [] } := by
  simp [Remove, h1, h2.symm, h3]

theorem Remove_of_present {T : GoType} {c : container} {key : Key T} {v : GoAny}
    (h1 : key.identity ≠ c.removedID) (h2 : key.identity = c.identity)
    (h3 : c.data.get key.mapKey = some v) :
    Remove T c key =
      { c := { c with data := c.data.delete key.mapKey },
        key := { key with identity := c.removedID },
        err := none,
        called := callHook c.auditHook "Remove" } := by
  simp [Remove, h1, h2.symm, h3]

/-- A successful `Remove` was given a key owned by the container and not
tombstoned, and it leaves the tokens alone and tombstones the key. -/
theorem Remove_err_none {T : GoType} {c : container} {key : Key T}
    (h : (Remove T c key).err = none) :
    key.identity ≠ c.removedID ∧ key.identity = c.identity ∧
      (Remove T c key).c.removedID = c.removedID ∧
      (Remove T c key).c.identity = c.identity ∧
      (Remove T c key).key.identity = c.removedID := by
  by_cases h1 : key.identity = c.removedID
  · rw [Remove_of_tombstoned h1] at h; simp at h
  · by_cases h2 : key.identity = c.identity
    · cases h3 : c.data.get key.mapKey with
      | none => rw [Remove_of_absent h1 h2 h3] at h; simp at h
      | some val => rw [Remove_of_present h1 h2 h3]; exact ⟨h1, h2, rfl, rfl, rfl⟩
    · rw [Remove_of_mismatch h1 h2] at h; simp at h

theorem assert_box_of_hasType {T : GoType} {d : Dyn} (h : HasType T (.box d)) :
    T.assert (.box d) = some (.box d) := by
  cases T with
  | concrete t =>
    obtain ⟨d', hd, ht⟩ := h
    cases hd
    simp [GoType.assert, GoType.admits, ht]
  | iface n impl =>
    have h' : impl d.type = true := h
    simp [GoType.assert, GoType.admits, h']

theorem assert_of_not_admits {T : GoType} {val : GoAny}
    (h : ∀ d, val = .box d → T.admits d.type = false) : T.assert val = none := by
  cases val with
  | nil => rfl
  | box d => simp [GoType.assert, h d rfl]

theorem selfStored_congr {c c' : container} (h : c'.identity = c.identity) (v : GoAny) :
    selfStored c' v = selfStored c v := by
  unfold selfStored
  rw [h]

/-- Round trip for a boxed value: on a container with distinct tokens, a
stored non-nil value of type `T` is fetched back unchanged with no error. -/
theorem Fetch_after_Store_box {T : GoType} {c : container} {d : Dyn} (k : String)
    (hc : c.identity ≠ c.removedID) (ht : HasType T (.box d))
    (hs : selfStored c (.box d) = false) :
    Fetch T (Store T c (.box d) k).c (Store T c (.box d) k).key =
      { c := (Store T c (.box d) k).c, val := .box d, err := none,
        called := callHook c.auditHook "Fetch" } := by
  rw [Store_of_not_self k hs]
  exact Fetch_of_cast (v := .box d) hc rfl (GoMap.get_set_self _ _ _) (assert_box_of_hasType ht)

/-! ## Round trip (C1) -/

/-- Claim C1, evaluated where the code departs from the round-trip law: on a
container with distinct tokens, `Store` of the nil value of an interface type
(`any`, `error`, ...) succeeds, and the immediately following `Fetch` with the
returned key fails with `ErrTypeCast` instead of returning the nil value with
no error. -/
theorem C1_roundtrip_fails_on_nil_interface (name : String) (impl : DynType → Bool)
    (c : container) (k : String) (hc : c.identity ≠ c.removedID) :
    HasType (.iface name impl) .nil ∧
    (Store (.iface name impl) c .nil k).err = none ∧
    Fetch (.iface name impl) (Store (.iface name impl) c .nil k).c
        (Store (.iface name impl) c .nil k).key =
      { c := (Store (.iface name impl) c .nil k).c, val := .nil,
        err := some .ErrTypeCast, called := [] } := by
  have hs : selfStored c .nil = false := rfl
  refine ⟨trivial, (Store_err_none_iff _ c .nil k).2 hs, ?_⟩
  rw [Store_of_not_self k hs]
  exact Fetch_of_cast_failure (v := .nil) hc rfl (GoMap.get_set_self _ _ _) rfl

theorem C1_roundtrip_fails_on_nil_interface_witness :
    (NewTHC none "id" "rid").identity ≠ (NewTHC none "id" "rid").removedID ∧
    (HasType GoType.any .nil ∧
     (Store GoType.any (NewTHC none "id" "rid") .nil "k").err = none ∧
     Fetch GoType.any (Store GoType.any (NewTHC none "id" "rid") .nil "k").c
        (Store GoType.any (NewTHC none "id" "rid") .nil "k").key =
      { c := (Store GoType.any (NewTHC none "id" "rid") .nil "k").c, val := .nil,
        err := some .ErrTypeCast, called := [] }) :=
  ⟨by decide,
   C1_roundtrip_fails_on_nil_interface "any" (fun _ => true) (NewTHC none "id" "rid") "k"
     (by decide)⟩

/-! ## Use after remove (C2) -/

/-- Claim C2 as stated fails: a key of type `Key[container]` is removed, and
`Update` through it with the container's own container value reports
`ErrStoreSelf`, not `ErrDeletedValue`. -/
theorem C2_update_after_remove_counterexample :
    (Remove (.concrete .container)
        (Store (.concrete .container) (NewTHC none "id" "rid")
          (.box (.containerVal "id2" "rid2")) "k").c
        (Store (.concrete .container) (NewTHC none "id" "rid")
          (.box (.containerVal "id2" "rid2")) "k").key).err = none ∧
    HasType (.concrete .container) (.box (.containerVal "id" "rid")) ∧
    (Update (.concrete .container)
        (Remove (.concrete .container)
          (Store (.concrete .container) (NewTHC none "id" "rid")
            (.box (.containerVal "id2" "rid2")) "k").c
          (Store (.concrete .container) (NewTHC none "id" "rid")
            (.box (.containerVal "id2" "rid2")) "k").key).c
        (Remove (.concrete .container)
          (Store (.concrete .container) (NewTHC none "id" "rid")
            (.box (.containerVal "id2" "rid2")) "k").c
          (Store (.concrete .container) (NewTHC none "id" "rid")
            (.box (.containerVal "id2" "rid2")) "k").key).key
        (.box (.containerVal "id" "rid"))).err = some .ErrStoreSelf ∧
    some ThcErr.ErrStoreSelf ≠ some ThcErr.ErrDeletedValue := by
  refine ⟨by decide, ⟨_, rfl, rfl⟩, by decide, by decide⟩

/-- Claim C2, amended: once `Remove(c, &h)` has succeeded, `Fetch(c, h)` and a
second `Remove(c, &h)` fail with `ErrDeletedValue`, and so does
`Update(c, h, w)` for every `w` that is not the container's own container
value; for such a `w` the guard that opens `Update` answers first and the
error is `ErrStoreSelf`.  None of these calls changes the container, and the
second `Remove` leaves the key as it was. -/
theorem C2_use_after_remove (T : GoType) (c : container) (h : Key T)
    (hr : (Remove T c h).err = none) :
    Fetch T (Remove T c h).c (Remove T c h).key =
      { c := (Remove T c h).c, val := T.zero, err := some .ErrDeletedValue, called := [] } ∧
    (∀ w, selfStored (Remove T c h).c w = false →
      Update T (Remove T c h).c (Remove T c h).key w =
        { c := (Remove T c h).c, err := some .ErrDeletedValue, called := [] }) ∧
    (∀ w, selfStored (Remove T c h).c w = true →
      Update T (Remove T c h).c (Remove T c h).key w =
        { c := (Remove T c h).c, err := some .ErrStoreSelf, called := [] }) ∧
    Remove T (Remove T c h).c (Remove T c h).key =
      { c := (Remove T c h).c, key := (Remove T c h).key,
        err := some .ErrDeletedValue, called := [] } := by
  obtain ⟨_, _, hrid, _, hkey⟩ := Remove_err_none hr
  have ht : (Remove T c h).key.identity = (Remove T c h).c.removedID := by
    rw [hkey, hrid]
  exact ⟨Fetch_of_tombstoned ht, fun w hw => Update_of_tombstoned hw ht,
    fun w hw => Update_of_self _ hw, Remove_of_tombstoned ht⟩

theorem C2_use_after_remove_witness :
    (Remove (.concrete .int)
        (Store (.concrete .int) (NewTHC none "id" "rid") (.box (.int 42)) "k").c
        (Store (.concrete .int) (NewTHC none "id" "rid") (.box (.int 42)) "k").key).err = none ∧
    (Remove (.concrete .int)
        (Remove (.concrete .int)
          (Store (.concrete .int) (NewTHC none "id" "rid") (.box (.int 42)) "k").c
          (Store (.concrete .int) (NewTHC none "id" "rid") (.box (.int 42)) "k").key).c
        (Remove (.concrete .int)
          (Store (.concrete .int) (NewTHC none "id" "rid") (.box (.int 42)) "k").c
          (Store (.concrete .int) (NewTHC none "id" "rid") (.box (.int 42)) "k").key).key).err =
      some .ErrDeletedValue :=
  ⟨by decide,
   congrArg RemoveResult.err
     (C2_use_after_remove (.concrete .int)
       (Store (.concrete .int) (NewTHC none "id" "rid") (.box (.int 42)) "k").c
       (Store (.concrete .int) (NewTHC none "id" "rid") (.box (.int 42)) "k").key
       (by decide)).2.2.2⟩

/-! ## Cross-container rejection (C3) -/

/-- Claim C3 as stated fails: `A` and `B` have four pairwise distinct tokens,
`h` is returned by a successful `Store` on `A`, and `Update(B, h, w)` with `w`
the container value of `B` reports `ErrStoreSelf`, not `ErrIdentMismatch`. -/
theorem C3_cross_container_update_counterexample :
    (Store (.concrete .container) (NewTHC none "a" "ra")
        (.box (.containerVal "b" "rb")) "k").err = none ∧
    HasType (.concrete .container) (.box (.containerVal "b" "rb")) ∧
    (Update (.concrete .container) (NewTHC none "b" "rb")
        (Store (.concrete .container) (NewTHC none "a" "ra")
          (.box (.containerVal "b" "rb")) "k").key
        (.box (.containerVal "b" "rb"))).err = some .ErrStoreSelf ∧
    some ThcErr.ErrStoreSelf ≠ some ThcErr.ErrIdentMismatch := by
  refine ⟨by decide, ⟨_, rfl, rfl⟩, by decide, by decide⟩

/-- Claim C3, amended: let the identity of `A` differ from both tokens of `B`
and let `h` be returned by a successful `Store` on `A`.  Then `Fetch(B, h)` and
`Remove(B, &h)` fail with `ErrIdentMismatch`, and so does `Update(B, h, w)` for
every `w` that is not the container value of `B`; for such a `w` the guard that
opens `Update` answers first and the error is `ErrStoreSelf`.  Each call leaves
`B` and `h` unchanged. -/
theorem C3_cross_container_rejected (T : GoType) (A B : container) (v : GoAny) (k : String)
    (h1 : A.identity ≠ B.identity) (h2 : A.identity ≠ B.removedID)
    (hs : (Store T A v k).err = none) :
    Fetch T B (Store T A v k).key =
      { c := B, val := T.zero, err := some .ErrIdentMismatch, called := [] } ∧
    (∀ w, selfStored B w = false →
      Update T B (Store T A v k).key w =
        { c := B, err := some .ErrIdentMismatch, called := [] }) ∧
    (∀ w, selfStored B w = true →
      Update T B (Store T A v k).key w =
        { c := B, err := some .ErrStoreSelf, called := [] }) ∧
    Remove T B (Store T A v k).key =
      { c := B, key := (Store T A v k).key, err := some .ErrIdentMismatch, called := [] } := by
  have hv : selfStored A v = false := (Store_err_none_iff T A v k).1 hs
  rw [Store_of_not_self k hv]
  exact ⟨Fetch_of_mismatch h2 h1, fun w hw => Update_of_mismatch hw h2 h1,
    fun w hw => Update_of_self _ hw, Remove_of_mismatch h2 h1⟩

theorem C3_cross_container_rejected_witness :
    (NewTHC none "a" "ra").identity ≠ (NewTHC none "b" "rb").identity ∧
    (NewTHC none "a" "ra").identity ≠ (NewTHC none "b" "rb").removedID ∧
    (Store (.concrete .string) (NewTHC none "a" "ra") (.box (.str "x")) "k").err = none ∧
    Fetch (.concrete .string) (NewTHC none "b" "rb")
        (Store (.concrete .string) (NewTHC none "a" "ra") (.box (.str "x")) "k").key =
      { c := NewTHC none "b" "rb", val := GoType.zero (.concrete .string),
        err := some .ErrIdentMismatch, called := [] } :=
  ⟨by decide, by decide, by decide,
   (C3_cross_container_rejected (.concrete .string) (NewTHC none "a" "ra")
      (NewTHC none "b" "rb") (.box (.str "x")) "k" (by decide) (by decide) (by decide)).1⟩

/-! ## Type mismatch (C4) -/

/-- Claim C4 as stated fails: a value is stored under type `int`, the type
parameter `any` is not `int`, and `Fetch[any]` with a key of the issued
identity and map key returns the value with no error. -/
theorem C4_fetch_other_type_counterexample :
    GoType.any ≠ GoType.concrete .int ∧
    (Store (.concrete .int) (NewTHC none "id" "rid") (.box (.int 42)) "k").err = none ∧
    Fetch GoType.any
        (Store (.concrete .int) (NewTHC none "id" "rid") (.box (.int 42)) "k").c
        { identity :=
            (Store (.concrete .int) (NewTHC none "id" "rid") (.box (.int 42)) "k").key.identity,
          mapKey :=
            (Store (.concrete .int) (NewTHC none "id" "rid") (.box (.int 42)) "k").key.mapKey } =
      { c := (Store (.concrete .int) (NewTHC none "id" "rid") (.box (.int 42)) "k").c,
        val := .box (.int 42), err := none, called := [] } := by
  refine ⟨?_, by decide, by decide⟩
  intro h
  cases h

/-- Claim C4, amended: on a container with distinct tokens, let a non-nil
value of type `S` be stored under `k`, and let `T` be a type that the dynamic
type of the value neither is (`T` not an interface) nor implements (`T` an
interface); such a `T` is never `S`.  Then `Fetch[T]` with the key of the
container's identity and map key `k` fails with `ErrTypeCast`, returns the zero
value, and leaves the container, hence the stored value, unchanged.  Nothing is
said of a stored nil interface value. -/
theorem C4_fetch_type_mismatch (S T : GoType) (c : container) (k : String) (d : Dyn)
    (hc : c.identity ≠ c.removedID) (hS : HasType S (.box d))
    (hv : c.data.get k = some (.box d)) (hT : T.admits d.type = false) :
    T ≠ S ∧
    Fetch T c { identity := c.identity, mapKey := k } =
      { c := c, val := T.zero, err := some .ErrTypeCast, called := [] } ∧
    (Fetch T c { identity := c.identity, mapKey := k }).c.data.get k = some (.box d) := by
  have hf : Fetch T c { identity := c.identity, mapKey := k } =
      { c := c, val := T.zero, err := some .ErrTypeCast, called := [] } :=
    Fetch_of_cast_failure hc rfl hv
      (assert_of_not_admits (fun d0 hd => by cases hd; exact hT))
  refine ⟨?_, hf, ?_⟩
  · intro e
    subst e
    have ha := assert_box_of_hasType hS
    simp [GoType.assert, hT] at ha
  · rw [hf]
    exact hv

theorem C4_fetch_type_mismatch_witness :
    (Store (.concrete .string) (NewTHC none "id" "rid") (.box (.str "x")) "k").c.identity ≠
      (Store (.concrete .string) (NewTHC none "id" "rid") (.box (.str "x")) "k").c.removedID ∧
    HasType (.concrete .string) (.box (.str "x")) ∧
    (Store (.concrete .string) (NewTHC none "id" "rid") (.box (.str "x")) "k").c.data.get "k" =
      some (.box (.str "x")) ∧
    GoType.admits (.concrete .int) (Dyn.str "x").type = false ∧
    (Fetch (.concrete .int)
        (Store (.concrete .string) (NewTHC none "id" "rid") (.box (.str "x")) "k").c
        { identity :=
            (Store (.concrete .string) (NewTHC none "id" "rid") (.box (.str "x")) "k").c.identity,
          mapKey := "k" }).err = some .ErrTypeCast :=
  ⟨by decide, ⟨_, rfl, rfl⟩, by decide, by decide,
   congrArg FetchResult.err
     (C4_fetch_type_mismatch (.concrete .string) (.concrete .int)
        (Store (.concrete .string) (NewTHC none "id" "rid") (.box (.str "x")) "k").c "k"
        (.str "x") (by decide) ⟨_, rfl, rfl⟩ (by decide) (by decide)).2.1⟩

/-! ## Self storage (C5) -/

/-- Claim C5, evaluated where the code departs from it: `NewTHC` returns a
`*container`, and `Store` given that pointer (whatever its address) does not
fail: the guard only matches the struct type `container`, so the pointer is
stored, no error is returned, the key is not the zero key, and `Len` goes from
0 to 1. -/
theorem C5_store_own_pointer_is_accepted (handler : FuncMap) (id rid : String) (addr : Nat)
    (k : String) :
    (NewTHC handler id rid).Len = 0 ∧
    (Store (.concrete .ptrContainer) (NewTHC handler id rid) (.box (.containerPtr addr)) k).err =
      none ∧
    (Store (.concrete .ptrContainer) (NewTHC handler id rid) (.box (.containerPtr addr)) k).key =
      { identity := id, mapKey := k } ∧
    (Store (.concrete .ptrContainer) (NewTHC handler id rid)
      (.box (.containerPtr addr)) k).c.data.get k = some (.box (.containerPtr addr)) ∧
    (Store (.concrete .ptrContainer) (NewTHC handler id rid)
      (.box (.containerPtr addr)) k).c.Len = 1 := by
  have hs : selfStored (NewTHC handler id rid) (.box (.containerPtr addr)) = false := rfl
  rw [Store_of_not_self k hs]
  exact ⟨rfl, rfl, rfl, GoMap.get_set_self _ _ _, rfl⟩

/-- The guard does fire on the container value: `Store` of a `container` value
whose identity is that of the container fails with `ErrStoreSelf`, returns the
zero key and leaves the container as it was. -/
theorem Store_own_value_rejected (c : container) (rid : String) (k : String) :
    Store (.concrete .container) c (.box (.containerVal c.identity rid)) k =
      { c := c, key := Key.zero (.concrete .container), err := some .ErrStoreSelf,
        called := [] } :=
  Store_of_self k (by simp [selfStored])

/-! ## End-to-end scenario (C6) -/

/-- Claim C6 as stated fails for some pairs of values: with `T` the type
`container` and `v` the container value of the fresh container itself, the
first step `Store(c, v)` already returns `ErrStoreSelf`. -/
theorem C6_scenario_counterexample :
    HasType (.concrete .container) (.box (.containerVal "id" "rid")) ∧
    (Store (.concrete .container) (NewTHC none "id" "rid")
        (.box (.containerVal "id" "rid")) "k").err = some .ErrStoreSelf ∧
    (Store (.concrete .container) (NewTHC none "id" "rid")
        (.box (.containerVal "id" "rid")) "k").err ≠ none := by
  refine ⟨⟨_, rfl, rfl⟩, by decide, by decide⟩

/-- Claim C6, amended: on a fresh container with two distinct tokens, for
every pair of non-nil values `v`, `w` of one type `T`, neither being the
container value of that container: `Store(c, v)` returns `h` with no error;
`Fetch(c, h)` is `v`; `Update(c, h, w)` returns no error; `Fetch(c, h)` is `w`;
`Remove(c, &h)` returns no error; `Fetch(c, h)` then fails with
`ErrDeletedValue`; and `c.Len()` is 0. -/
theorem C6_scenario (handler : FuncMap) (id rid : String) (T : GoType) (v w : Dyn)
    (k : String) (hid : id ≠ rid)
    (hv : HasType T (.box v)) (hw : HasType T (.box w))
    (hsv : selfStored (NewTHC handler id rid) (.box v) = false)
    (hsw : selfStored (NewTHC handler id rid) (.box w) = false) :
    let c := NewTHC handler id rid
    let s := Store T c (.box v) k
    let f1 := Fetch T s.c s.key
    let u := Update T f1.c s.key (.box w)
    let f2 := Fetch T u.c s.key
    let r := Remove T f2.c s.key
    let f3 := Fetch T r.c r.key
    s.err = none ∧ f1.val = .box v ∧ f1.err = none ∧ u.err = none ∧
      f2.val = .box w ∧ f2.err = none ∧ r.err = none ∧
      f3.err = some .ErrDeletedValue ∧ f3.c.Len = 0 := by
  intro c s f1 u f2 r f3
  have hc : c.identity ≠ c.removedID := hid
  have hs : s = { c := { c with data := c.data.set k (.box v) },
                  key := { identity := c.identity, mapKey := k },
                  err := none, called := callHook c.auditHook "Store" } :=
    Store_of_not_self k hsv
  have hf1 : f1 = { c := s.c, val := .box v, err := none,
                    called := callHook c.auditHook "Fetch" } :=
    Fetch_after_Store_box k hc hv hsv
  have hu : u = { c := { s.c with data := s.c.data.set k (.box w) }, err := none,
                  called := callHook s.c.auditHook "Update" } := by
    show Update T f1.c s.key (.box w) = _
    rw [hf1, hs]
    exact Update_of_owned hsw hc rfl
  have hf2 : f2 = { c := u.c, val := .box w, err := none,
                    called := callHook u.c.auditHook "Fetch" } := by
    show Fetch T u.c s.key = _
    rw [hu, hs]
    exact Fetch_of_cast (v := .box w) hc rfl (GoMap.get_set_self _ _ _)
      (assert_box_of_hasType hw)
  have hr : r = { c := { u.c with data := u.c.data.delete k },
                  key := { identity := c.removedID, mapKey := k }, err := none,
                  called := callHook u.c.auditHook "Remove" } := by
    show Remove T f2.c s.key = _
    rw [hf2, hu, hs]
    exact Remove_of_present (v := .box w) hc rfl (GoMap.get_set_self _ _ _)
  have hf3 : f3 = { c := r.c, val := T.zero, err := some .ErrDeletedValue, called := [] } := by
    show Fetch T r.c r.key = _
    rw [hr, hu, hs]
    exact Fetch_of_tombstoned rfl
  refine ⟨by rw [hs], by rw [hf1], by rw [hf1], by rw [hu], by rw [hf2], by rw [hf2],
    by rw [hr], by rw [hf3], ?_⟩
  rw [hf3, hr, hu, hs]
  simp [container.Len, GoMap.len, GoMap.delete, GoMap.set, setEntries, deleteEntries, c,
    NewTHC, GoMap.empty]

theorem C6_scenario_witness :
    "id" ≠ "rid" ∧
    HasType (.concrete .int) (.box (.int 42)) ∧ HasType (.concrete .int) (.box (.int 43)) ∧
    (let c := NewTHC none "id" "rid"
     let s := Store (.concrete .int) c (.box (.int 42)) "k"
     let f1 := Fetch (.concrete .int) s.c s.key
     let u := Update (.concrete .int) f1.c s.key (.box (.int 43))
     let f2 := Fetch (.concrete .int) u.c s.key
     let r := Remove (.concrete .int) f2.c s.key
     let f3 := Fetch (.concrete .int) r.c r.key
     s.err = none ∧ f1.val = .box (.int 42) ∧ f1.err = none ∧ u.err = none ∧
       f2.val = .box (.int 43) ∧ f2.err = none ∧ r.err = none ∧
       f3.err = some .ErrDeletedValue ∧ f3.c.Len = 0) :=
  ⟨by decide, ⟨_, rfl, rfl⟩, ⟨_, rfl, rfl⟩,
   C6_scenario none "id" "rid" (.concrete .int) (.int 42) (.int 43) "k" (by decide)
     ⟨_, rfl, rfl⟩ ⟨_, rfl, rfl⟩ rfl rfl⟩

/-! ## Order of the checks in `Fetch` (C7) -/

/-- Claim C7 as stated fails in its fourth case: the key is not tombstoned, is
owned by the container and is present, the dynamic type `string` of the stored
value is not the type parameter `any`, and yet `Fetch[any]` returns the value
with no error instead of `ErrTypeCast`. -/
theorem C7_fourth_case_counterexample :
    (⟨"id", "k"⟩ : Key GoType.any).identity ≠
      (Store (.concrete .string) (NewTHC none "id" "rid") (.box (.str "x")) "k").c.removedID ∧
    (⟨"id", "k"⟩ : Key GoType.any).identity =
      (Store (.concrete .string) (NewTHC none "id" "rid") (.box (.str "x")) "k").c.identity ∧
    (Store (.concrete .string) (NewTHC none "id" "rid") (.box (.str "x")) "k").c.data.get "k" =
      some (.box (.str "x")) ∧
    GoType.any ≠ GoType.concrete (Dyn.str "x").type ∧
    Fetch GoType.any
        (Store (.concrete .string) (NewTHC none "id" "rid") (.box (.str "x")) "k").c
        ⟨"id", "k"⟩ =
      { c := (Store (.concrete .string) (NewTHC none "id" "rid") (.box (.str "x")) "k").c,
        val := .box (.str "x"), err := none, called := [] } := by
  refine ⟨by decide, by decide, by decide, ?_, by decide⟩
  intro h
  cases h

/-- Claim C7, amended: for every container `c`, type `T` and key `h`, the
outcome of `Fetch[T](c, h)` is decided by the first case that applies, in this
order: (1) `h.identity = c.removedID` gives `ErrDeletedValue`; (2)
`h.identity ≠ c.identity` gives `ErrIdentMismatch`; (3) `h.mapKey` absent from
the store gives `ErrValNotFound`; (4) the stored value is the nil interface
value, or its dynamic type neither is `T` (for `T` not an interface) nor
implements `T` (for `T` an interface), gives `ErrTypeCast`; (5) otherwise the
stored value is returned with no error.  Case (1) needs nothing else, so a
tombstoned key reports `ErrDeletedValue` also when `c.removedID = c.identity`
or the key is absent.  No case changes the container. -/
theorem C7_fetch_case_order (T : GoType) (c : container) (h : Key T) :
    (h.identity = c.removedID →
      Fetch T c h = { c := c, val := T.zero, err := some .ErrDeletedValue, called := [] }) ∧
    (h.identity ≠ c.removedID → h.identity ≠ c.identity →
      Fetch T c h = { c := c, val := T.zero, err := some .ErrIdentMismatch, called := [] }) ∧
    (h.identity ≠ c.removedID → h.identity = c.identity → c.data.get h.mapKey = none →
      Fetch T c h = { c := c, val := T.zero, err := some .ErrValNotFound, called := [] }) ∧
    (∀ v, h.identity ≠ c.removedID → h.identity = c.identity →
      c.data.get h.mapKey = some v →
      (v = .nil ∨ ∃ d, v = .box d ∧ T.admits d.type = false) →
      Fetch T c h = { c := c, val := T.zero, err := some .ErrTypeCast, called := [] }) ∧
    (∀ d, h.identity ≠ c.removedID → h.identity = c.identity →
      c.data.get h.mapKey = some (.box d) → T.admits d.type = true →
      Fetch T c h =
        { c := c, val := .box d, err := none, called := callHook c.auditHook "Fetch" }) := by
  refine ⟨Fetch_of_tombstoned, Fetch_of_mismatch, Fetch_of_absent, ?_, ?_⟩
  · intro v h1 h2 h3 h4
    refine Fetch_of_cast_failure h1 h2 h3 (assert_of_not_admits ?_)
    intro d hd
    rcases h4 with h4 | ⟨d', hd', ha⟩
    · rw [h4] at hd; cases hd
    · rw [hd'] at hd; cases hd; exact ha
  · intro d h1 h2 h3 h4
    exact Fetch_of_cast h1 h2 h3 (by simp [GoType.assert, h4])

theorem C7_fetch_case_order_witness :
    (⟨"rid", "nokey"⟩ : Key (.concrete .int)).identity = (NewTHC none "rid" "rid").removedID ∧
    Fetch (.concrete .int) (NewTHC none "rid" "rid") ⟨"rid", "nokey"⟩ =
      { c := NewTHC none "rid" "rid", val := GoType.zero (.concrete .int),
        err := some .ErrDeletedValue, called := [] } :=
  ⟨by decide,
   (C7_fetch_case_order (.concrete .int) (NewTHC none "rid" "rid") ⟨"rid", "nokey"⟩).1
     (by decide)⟩

/-! ## Postcondition of `Remove` (C8) -/

/-- Claim C8: let `h.identity = c.identity ≠ c.removedID`.  If `h.mapKey` is
present, `Remove` returns no error, the resulting store is the old store with
exactly that key deleted (the key is absent, every other key reads as before,
`Len` is one less), and the key behind the pointer has identity `c.removedID`
and the same `mapKey`.  If `h.mapKey` is absent, `Remove` returns
`ErrMissingValue` and both the container and the key are unchanged. -/
theorem C8_remove_postcondition (T : GoType) (c : container) (h : Key T)
    (hid : h.identity = c.identity) (hne : c.identity ≠ c.removedID) :
    (∀ v, c.data.get h.mapKey = some v →
      (Remove T c h).err = none ∧
      (Remove T c h).c.data.get h.mapKey = none ∧
      (∀ k, k ≠ h.mapKey → (Remove T c h).c.data.get k = c.data.get k) ∧
      (Remove T c h).c.Len + 1 = c.Len ∧
      (Remove T c h).key.identity = c.removedID ∧
      (Remove T c h).key.mapKey = h.mapKey) ∧
    (c.data.get h.mapKey = none →
      (Remove T c h).err = some .ErrMissingValue ∧
      (Remove T c h).c = c ∧
      (Remove T c h).key = h) := by
  have h1 : h.identity ≠ c.removedID := by rw [hid]; exact hne
  constructor
  · intro v hv
    rw [Remove_of_present h1 hid hv]
    refine ⟨rfl, ?_, ?_, ?_, rfl, rfl⟩
    · show (c.data.delete h.mapKey).get h.mapKey = none
      rw [GoMap.get_delete]; simp
    · intro k hk
      show (c.data.delete h.mapKey).get k = c.data.get k
      rw [GoMap.get_delete]; simp [hk]
    · show (c.data.delete h.mapKey).len + 1 = c.data.len
      exact GoMap.len_delete_present _ _ (by simp [hv])
  · intro hv
    rw [Remove_of_absent h1 hid hv]
    exact ⟨rfl, rfl, rfl⟩

theorem C8_remove_postcondition_witness :
    (⟨"id", "k"⟩ : Key (.concrete .int)).identity =
      (Store (.concrete .int) (NewTHC none "id" "rid") (.box (.int 42)) "k").c.identity ∧
    (Store (.concrete .int) (NewTHC none "id" "rid") (.box (.int 42)) "k").c.identity ≠
      (Store (.concrete .int) (NewTHC none "id" "rid") (.box (.int 42)) "k").c.removedID ∧
    (Store (.concrete .int) (NewTHC none "id" "rid") (.box (.int 42)) "k").c.data.get "k" =
      some (.box (.int 42)) ∧
    (Remove (.concrete .int)
      (Store (.concrete .int) (NewTHC none "id" "rid") (.box (.int 42)) "k").c
      ⟨"id", "k"⟩).err = none :=
  ⟨by decide, by decide, by decide,
   ((C8_remove_postcondition (.concrete .int)
      (Store (.concrete .int) (NewTHC none "id" "rid") (.box (.int 42)) "k").c
      ⟨"id", "k"⟩ (by decide) (by decide)).1 (.box (.int 42)) (by decide)).1⟩

/-! ## Postcondition of `Update` (C9) -/

/-- What `Update` does for a key owned by the container and a value the guard
lets through: no error whether or not the key is present, the store maps the
key to the new value and reads as before elsewhere, `Len` is unchanged when the
key was present and one more when it was absent, and a following `Fetch`
returns the new value when that value is not the nil interface value. -/
theorem Update_owned_postcondition (T : GoType) (c : container) (h : Key T) (w : GoAny)
    (hid : h.identity = c.identity) (hne : c.identity ≠ c.removedID)
    (hs : selfStored c w = false) :
    (Update T c h w).err = none ∧
    (Update T c h w).c.data.get h.mapKey = some w ∧
    (∀ k, k ≠ h.mapKey → (Update T c h w).c.data.get k = c.data.get k) ∧
    (Update T c h w).c.Len = (if (c.data.get h.mapKey).isSome then c.Len else c.Len + 1) ∧
    (∀ d, w = .box d → HasType T w →
      Fetch T (Update T c h w).c h =
        { c := (Update T c h w).c, val := w, err := none,
          called := callHook c.auditHook "Fetch" }) := by
  have h1 : h.identity ≠ c.removedID := by rw [hid]; exact hne
  rw [Update_of_owned hs h1 hid]
  refine ⟨rfl, GoMap.get_set_self _ _ _, ?_, GoMap.len_set _ _ _, ?_⟩
  · intro k hk
    show (c.data.set h.mapKey w).get k = c.data.get k
    rw [GoMap.get_set]; simp [hk]
  · intro d hd ht
    subst hd
    exact Fetch_of_cast (v := .box d) h1 hid (GoMap.get_set_self _ _ _)
      (assert_box_of_hasType ht)

/-- Claim C9, evaluated where the code departs from it: for a key of an
interface type owned by a container with distinct tokens, `Update` with the nil
value of that type returns no error and binds the key to nil, and the following
`Fetch` fails with `ErrTypeCast` instead of returning the value just written. -/
theorem C9_fetch_after_update_with_nil_fails (name : String) (impl : DynType → Bool)
    (c : container) (h : Key (.iface name impl))
    (hid : h.identity = c.identity) (hne : c.identity ≠ c.removedID) :
    HasType (.iface name impl) .nil ∧
    selfStored c .nil = false ∧
    (Update (.iface name impl) c h .nil).err = none ∧
    (Update (.iface name impl) c h .nil).c.data.get h.mapKey = some .nil ∧
    Fetch (.iface name impl) (Update (.iface name impl) c h .nil).c h =
      { c := (Update (.iface name impl) c h .nil).c, val := .nil,
        err := some .ErrTypeCast, called := [] } := by
  have h1 : h.identity ≠ c.removedID := by rw [hid]; exact hne
  have hs : selfStored c .nil = false := rfl
  rw [Update_of_owned hs h1 hid]
  exact ⟨trivial, rfl, rfl, GoMap.get_set_self _ _ _,
    Fetch_of_cast_failure (v := .nil) h1 hid (GoMap.get_set_self _ _ _) rfl⟩

theorem C9_fetch_after_update_with_nil_fails_witness :
    (Store GoType.any (NewTHC none "id" "rid") (.box (.int 1)) "k").key.identity =
      (Store GoType.any (NewTHC none "id" "rid") (.box (.int 1)) "k").c.identity ∧
    (Store GoType.any (NewTHC none "id" "rid") (.box (.int 1)) "k").c.identity ≠
      (Store GoType.any (NewTHC none "id" "rid") (.box (.int 1)) "k").c.removedID ∧
    (Update GoType.any (Store GoType.any (NewTHC none "id" "rid") (.box (.int 1)) "k").c
      (Store GoType.any (NewTHC none "id" "rid") (.box (.int 1)) "k").key .nil).err = none ∧
    (Fetch GoType.any
      (Update GoType.any (Store GoType.any (NewTHC none "id" "rid") (.box (.int 1)) "k").c
        (Store GoType.any (NewTHC none "id" "rid") (.box (.int 1)) "k").key .nil).c
      (Store GoType.any (NewTHC none "id" "rid") (.box (.int 1)) "k").key).err =
      some .ErrTypeCast :=
  ⟨by decide, by decide,
   (C9_fetch_after_update_with_nil_fails "any" (fun _ => true)
      (Store GoType.any (NewTHC none "id" "rid") (.box (.int 1)) "k").c
      (Store GoType.any (NewTHC none "id" "rid") (.box (.int 1)) "k").key
      (by decide) (by decide)).2.2.1,
   congrArg FetchResult.err
     (C9_fetch_after_update_with_nil_fails "any" (fun _ => true)
        (Store GoType.any (NewTHC none "id" "rid") (.box (.int 1)) "k").c
        (Store GoType.any (NewTHC none "id" "rid") (.box (.int 1)) "k").key
        (by decide) (by decide)).2.2.2.2⟩

/-! ## Postcondition of `Store` (C10) -/

/-- Claim C10: let `v` not be the container value of `c` and let the generated
key `k` be absent from the store.  Then `Store` returns no error and the key
with identity `c.identity` and map key `k`; the resulting store is the old
store plus exactly the binding of `k` to `v` (`k` reads `v`, every other key
reads as before, `Len` is one more); the tokens are unchanged.  And whatever
the arguments, the only error `Store` returns is `ErrStoreSelf`. -/
theorem C10_store_postcondition (T : GoType) (c : container) (v : GoAny) (k : String)
    (hs : selfStored c v = false) (hk : c.data.get k = none) :
    ((Store T c v k).err = none ∧
     (Store T c v k).key = { identity := c.identity, mapKey := k } ∧
     (Store T c v k).c.data.get k = some v ∧
     (∀ k0, k0 ≠ k → (Store T c v k).c.data.get k0 = c.data.get k0) ∧
     (Store T c v k).c.Len = c.Len + 1 ∧
     (Store T c v k).c.identity = c.identity ∧
     (Store T c v k).c.removedID = c.removedID) ∧
    (∀ (T0 : GoType) (c0 : container) (v0 : GoAny) (k0 : String) (e : ThcErr),
      (Store T0 c0 v0 k0).err = some e → e = .ErrStoreSelf) := by
  constructor
  · rw [Store_of_not_self k hs]
    refine ⟨rfl, rfl, GoMap.get_set_self _ _ _, ?_, ?_, rfl, rfl⟩
    · intro k0 hk0
      show (c.data.set k v).get k0 = c.data.get k0
      rw [GoMap.get_set]; simp [hk0]
    · show (c.data.set k v).len = c.data.len + 1
      rw [GoMap.len_set, hk]; simp
  · intro T0 c0 v0 k0 e he
    cases h0 : selfStored c0 v0 with
    | true =>
      rw [Store_of_self k0 h0] at he
      simp only [Option.some.injEq] at he
      exact he.symm
    | false =>
      rw [Store_of_not_self k0 h0] at he
      cases he

theorem C10_store_postcondition_witness :
    selfStored (Store (.concrete .int) (NewTHC none "id" "rid") (.box (.int 42)) "k1").c
      (.box (.str "x")) = false ∧
    (Store (.concrete .int) (NewTHC none "id" "rid") (.box (.int 42)) "k1").c.data.get "k2" =
      none ∧
    (Store (.concrete .string)
      (Store (.concrete .int) (NewTHC none "id" "rid") (.box (.int 42)) "k1").c
      (.box (.str "x")) "k2").c.Len =
      (Store (.concrete .int) (NewTHC none "id" "rid") (.box (.int 42)) "k1").c.Len + 1 :=
  ⟨by decide, by decide,
   (C10_store_postcondition (.concrete .string)
      (Store (.concrete .int) (NewTHC none "id" "rid") (.box (.int 42)) "k1").c
      (.box (.str "x")) "k2" (by decide) (by decide)).1.2.2.2.2.1⟩

/-! ## What each operation leaves alone -/

theorem callHook_eq_toList (m : FuncMap) (name : String) :
    callHook m name = (m.get name).toList := by
  unfold callHook
  cases m.get name <;> rfl

/-- `Fetch` never assigns to the container. -/
theorem Fetch_container (T : GoType) (c : container) (h : Key T) : (Fetch T c h).c = c := by
  unfold Fetch
  split
  · rfl
  · split
    · rfl
    · split
      · rfl
      · split <;> rfl

/-- `Store` leaves the tokens and the hooks alone, and every key other than
the new one. -/
theorem Store_frame (T : GoType) (c : container) (v : GoAny) (k : String) :
    (Store T c v k).c.identity = c.identity ∧
    (Store T c v k).c.removedID = c.removedID ∧
    (Store T c v k).c.auditHook = c.auditHook ∧
    (∀ k0, k0 ≠ k → (Store T c v k).c.data.get k0 = c.data.get k0) := by
  cases hs : selfStored c v with
  | true =>
    rw [Store_of_self k hs]
    exact ⟨rfl, rfl, rfl, fun _ _ => rfl⟩
  | false =>
    rw [Store_of_not_self k hs]
    refine ⟨rfl, rfl, rfl, fun k0 hk0 => ?_⟩
    show (c.data.set k v).get k0 = c.data.get k0
    rw [GoMap.get_set]; simp [hk0]

/-- `Update` leaves the tokens and the hooks alone, and every key other than
that of the handle. -/
theorem Update_frame (T : GoType) (c : container) (h : Key T) (w : GoAny) :
    (Update T c h w).c.identity = c.identity ∧
    (Update T c h w).c.removedID = c.removedID ∧
    (Update T c h w).c.auditHook = c.auditHook ∧
    (∀ k0, k0 ≠ h.mapKey → (Update T c h w).c.data.get k0 = c.data.get k0) := by
  cases hs : selfStored c w with
  | true =>
    rw [Update_of_self h hs]
    exact ⟨rfl, rfl, rfl, fun _ _ => rfl⟩
  | false =>
    by_cases h1 : h.identity = c.removedID
    · rw [Update_of_tombstoned hs h1]
      exact ⟨rfl, rfl, rfl, fun _ _ => rfl⟩
    · by_cases h2 : h.identity = c.identity
      · rw [Update_of_owned hs h1 h2]
        refine ⟨rfl, rfl, rfl, fun k0 hk0 => ?_⟩
        show (c.data.set h.mapKey w).get k0 = c.data.get k0
        rw [GoMap.get_set]; simp [hk0]
      · rw [Update_of_mismatch hs h1 h2]
        exact ⟨rfl, rfl, rfl, fun _ _ => rfl⟩

/-- `Remove` leaves the tokens and the hooks alone, and every key other than
that of the handle. -/
theorem Remove_frame (T : GoType) (c : container) (h : Key T) :
    (Remove T c h).c.identity = c.identity ∧
    (Remove T c h).c.removedID = c.removedID ∧
    (Remove T c h).c.auditHook = c.auditHook ∧
    (∀ k0, k0 ≠ h.mapKey → (Remove T c h).c.data.get k0 = c.data.get k0) := by
  by_cases h1 : h.identity = c.removedID
  · rw [Remove_of_tombstoned h1]
    exact ⟨rfl, rfl, rfl, fun _ _ => rfl⟩
  · by_cases h2 : h.identity = c.identity
    · cases h3 : c.data.get h.mapKey with
      | none =>
        rw [Remove_of_absent h1 h2 h3]
        exact ⟨rfl, rfl, rfl, fun _ _ => rfl⟩
      | some v =>
        rw [Remove_of_present h1 h2 h3]
        refine ⟨rfl, rfl, rfl, fun k0 hk0 => ?_⟩
        show (c.data.delete h.mapKey).get k0 = c.data.get k0
        rw [GoMap.get_delete]; simp [hk0]
    · rw [Remove_of_mismatch h1 h2]
      exact ⟨rfl, rfl, rfl, fun _ _ => rfl⟩

/-- The outcome of `Fetch` depends on the container only through its tokens,
its hooks and what the store holds under the key of the handle. -/
theorem Fetch_congr (T : GoType) (c c' : container) (h : Key T)
    (hi : c'.identity = c.identity) (hr : c'.removedID = c.removedID)
    (ha : c'.auditHook = c.auditHook) (hd : c'.data.get h.mapKey = c.data.get h.mapKey) :
    (Fetch T c' h).val = (Fetch T c h).val ∧
    (Fetch T c' h).err = (Fetch T c h).err ∧
    (Fetch T c' h).called = (Fetch T c h).called := by
  unfold Fetch
  rw [hi, hr, ha, hd]
  split
  · exact ⟨rfl, rfl, rfl⟩
  · split
    · exact ⟨rfl, rfl, rfl⟩
    · split
      · exact ⟨rfl, rfl, rfl⟩
      · split <;> exact ⟨rfl, rfl, rfl⟩

/-- The value and the error that `Fetch` returns do not depend on the hooks. -/
theorem Fetch_val_err_congr (T : GoType) (c c' : container) (h : Key T)
    (hi : c'.identity = c.identity) (hr : c'.removedID = c.removedID)
    (hd : c'.data.get h.mapKey = c.data.get h.mapKey) :
    (Fetch T c' h).val = (Fetch T c h).val ∧
    (Fetch T c' h).err = (Fetch T c h).err := by
  unfold Fetch
  rw [hi, hr, hd]
  split
  · exact ⟨rfl, rfl⟩
  · split
    · exact ⟨rfl, rfl⟩
    · split
      · exact ⟨rfl, rfl⟩
      · split <;> exact ⟨rfl, rfl⟩

/-- One call leaves both tokens alone. -/
theorem Call.run_tokens (c : container) (call : Call) :
    (call.run c).identity = c.identity ∧ (call.run c).removedID = c.removedID := by
  cases call with
  | store T v k => exact ⟨(Store_frame T c v k).1, (Store_frame T c v k).2.1⟩
  | fetch T h => simp [Call.run, Fetch_container]
  | update T h w => exact ⟨(Update_frame T c h w).1, (Update_frame T c h w).2.1⟩
  | remove T h => exact ⟨(Remove_frame T c h).1, (Remove_frame T c h).2.1⟩
  | len => exact ⟨rfl, rfl⟩
  | string => exact ⟨rfl, rfl⟩

/-- A series of calls leaves both tokens alone. -/
theorem runCalls_tokens (c : container) (calls : List Call) :
    (runCalls c calls).identity = c.identity ∧ (runCalls c calls).removedID = c.removedID := by
  induction calls generalizing c with
  | nil => exact ⟨rfl, rfl⟩
  | cons call rest ih =>
    obtain ⟨h1, h2⟩ := ih (call.run c)
    obtain ⟨h3, h4⟩ := Call.run_tokens c call
    exact ⟨h1.trans h3, h2.trans h4⟩

/-! ## Atomicity on failure (C11) -/

/-- Claim C11: whenever `Store`, `Fetch`, `Update` or `Remove` returns an
error, the container (its store, its two tokens and its hooks) is exactly as
it was before the call, and so is the key behind the pointer given to
`Remove`; `Fetch` and `Update` receive their key by value and `Store` receives
none. -/
theorem C11_no_change_on_error (c : container) :
    (∀ (T : GoType) (v : GoAny) (k : String) (e : ThcErr),
      (Store T c v k).err = some e → (Store T c v k).c = c) ∧
    (∀ (T : GoType) (h : Key T) (e : ThcErr),
      (Fetch T c h).err = some e → (Fetch T c h).c = c) ∧
    (∀ (T : GoType) (h : Key T) (w : GoAny) (e : ThcErr),
      (Update T c h w).err = some e → (Update T c h w).c = c) ∧
    (∀ (T : GoType) (h : Key T) (e : ThcErr),
      (Remove T c h).err = some e → (Remove T c h).c = c ∧ (Remove T c h).key = h) := by
  refine ⟨?_, ?_, ?_, ?_⟩
  · intro T v k e he
    cases hs : selfStored c v with
    | true => rw [Store_of_self k hs]
    | false => rw [Store_of_not_self k hs] at he; cases he
  · intro T h e _
    exact Fetch_container T c h
  · intro T h w e he
    cases hs : selfStored c w with
    | true => rw [Update_of_self h hs]
    | false =>
      by_cases h1 : h.identity = c.removedID
      · rw [Update_of_tombstoned hs h1]
      · by_cases h2 : h.identity = c.identity
        · rw [Update_of_owned hs h1 h2] at he; cases he
        · rw [Update_of_mismatch hs h1 h2]
  · intro T h e he
    by_cases h1 : h.identity = c.removedID
    · rw [Remove_of_tombstoned h1]; exact ⟨rfl, rfl⟩
    · by_cases h2 : h.identity = c.identity
      · cases h3 : c.data.get h.mapKey with
        | none => rw [Remove_of_absent h1 h2 h3]; exact ⟨rfl, rfl⟩
        | some v => rw [Remove_of_present h1 h2 h3] at he; cases he
      · rw [Remove_of_mismatch h1 h2]; exact ⟨rfl, rfl⟩

theorem C11_no_change_on_error_witness :
    (Remove (.concrete .int) (NewTHC none "id" "rid") ⟨"id", "k"⟩).err =
      some .ErrMissingValue ∧
    (Remove (.concrete .int) (NewTHC none "id" "rid") ⟨"id", "k"⟩).c = NewTHC none "id" "rid" ∧
    (Remove (.concrete .int) (NewTHC none "id" "rid") ⟨"id", "k"⟩).key = ⟨"id", "k"⟩ :=
  ⟨by decide,
   (C11_no_change_on_error (NewTHC none "id" "rid")).2.2.2 (.concrete .int) ⟨"id", "k"⟩
     .ErrMissingValue (by decide)⟩

/-! ## Audit hooks (C12) -/

theorem Store_hooks (T : GoType) (c : container) (v : GoAny) (k : String) :
    ((Store T c v k).err = none →
      (Store T c v k).called = (c.auditHook.get "Store").toList) ∧
    ((Store T c v k).err ≠ none → (Store T c v k).called = []) ∧
    (∀ m : FuncMap,
      (Store T { c with auditHook := m } v k).err = (Store T c v k).err ∧
      (Store T { c with auditHook := m } v k).key = (Store T c v k).key ∧
      (Store T { c with auditHook := m } v k).c.data = (Store T c v k).c.data) := by
  have hm : ∀ m : FuncMap, selfStored { c with auditHook := m } v = selfStored c v :=
    fun m => rfl
  cases hs : selfStored c v with
  | true =>
    rw [Store_of_self k hs]
    refine ⟨fun h => (by cases h), fun _ => rfl, fun m => ?_⟩
    rw [Store_of_self k ((hm m).trans hs)]
    exact ⟨rfl, rfl, rfl⟩
  | false =>
    rw [Store_of_not_self k hs]
    refine ⟨fun _ => callHook_eq_toList _ _, fun h => absurd rfl h, fun m => ?_⟩
    rw [Store_of_not_self k ((hm m).trans hs)]
    exact ⟨rfl, rfl, rfl⟩

theorem Fetch_hooks (T : GoType) (c : container) (h : Key T) :
    ((Fetch T c h).err = none →
      (Fetch T c h).called = (c.auditHook.get "Fetch").toList) ∧
    ((Fetch T c h).err ≠ none → (Fetch T c h).called = []) ∧
    (∀ m : FuncMap,
      (Fetch T { c with auditHook := m } h).err = (Fetch T c h).err ∧
      (Fetch T { c with auditHook := m } h).val = (Fetch T c h).val ∧
      (Fetch T { c with auditHook := m } h).c.data = (Fetch T c h).c.data) := by
  refine ⟨?_, ?_, fun m => ?_⟩
  · unfold Fetch
    split
    · intro h; cases h
    · split
      · intro h; cases h
      · split
        · intro h; cases h
        · split
          · intro h; cases h
          · intro _; exact callHook_eq_toList _ _
  · unfold Fetch
    split
    · intro _; rfl
    · split
      · intro _; rfl
      · split
        · intro _; rfl
        · split
          · intro _; rfl
          · intro h; exact absurd rfl h
  · have hc := Fetch_val_err_congr T c { c with auditHook := m } h rfl rfl rfl
    refine ⟨hc.2, hc.1, ?_⟩
    rw [Fetch_container, Fetch_container]

theorem Update_hooks (T : GoType) (c : container) (h : Key T) (w : GoAny) :
    ((Update T c h w).err = none →
      (Update T c h w).called = (c.auditHook.get "Update").toList) ∧
    ((Update T c h w).err ≠ none → (Update T c h w).called = []) ∧
    (∀ m : FuncMap,
      (Update T { c with auditHook := m } h w).err = (Update T c h w).err ∧
      (Update T { c with auditHook := m } h w).c.data = (Update T c h w).c.data) := by
  have hm : ∀ m : FuncMap, selfStored { c with auditHook := m } w = selfStored c w :=
    fun m => rfl
  cases hs : selfStored c w with
  | true =>
    rw [Update_of_self h hs]
    refine ⟨fun e => (by cases e), fun _ => rfl, fun m => ?_⟩
    rw [Update_of_self h ((hm m).trans hs)]
    exact ⟨rfl, rfl⟩
  | false =>
    by_cases h1 : h.identity = c.removedID
    · rw [Update_of_tombstoned hs h1]
      refine ⟨fun e => (by cases e), fun _ => rfl, fun m => ?_⟩
      have h1m : h.identity = ({ c with auditHook := m } : container).removedID := h1
      rw [Update_of_tombstoned ((hm m).trans hs) h1m]
      exact ⟨rfl, rfl⟩
    · by_cases h2 : h.identity = c.identity
      · rw [Update_of_owned hs h1 h2]
        refine ⟨fun _ => callHook_eq_toList _ _, fun e => absurd rfl e, fun m => ?_⟩
        have h1m : h.identity ≠ ({ c with auditHook := m } : container).removedID := h1
        have h2m : h.identity = ({ c with auditHook := m } : container).identity := h2
        rw [Update_of_owned ((hm m).trans hs) h1m h2m]
        exact ⟨rfl, rfl⟩
      · rw [Update_of_mismatch hs h1 h2]
        refine ⟨fun e => (by cases e), fun _ => rfl, fun m => ?_⟩
        have h1m : h.identity ≠ ({ c with auditHook := m } : container).removedID := h1
        have h2m : h.identity ≠ ({ c with auditHook := m } : container).identity := h2
        rw [Update_of_mismatch ((hm m).trans hs) h1m h2m]
        exact ⟨rfl, rfl⟩

theorem Remove_hooks (T : GoType) (c : container) (h : Key T) :
    ((Remove T c h).err = none →
      (Remove T c h).called = (c.auditHook.get "Remove").toList) ∧
    ((Remove T c h).err ≠ none → (Remove T c h).called = []) ∧
    (∀ m : FuncMap,
      (Remove T { c with auditHook := m } h).err = (Remove T c h).err ∧
      (Remove T { c with auditHook := m } h).key = (Remove T c h).key ∧
      (Remove T { c with auditHook := m } h).c.data = (Remove T c h).c.data) := by
  by_cases h1 : h.identity = c.removedID
  · rw [Remove_of_tombstoned h1]
    refine ⟨fun e => (by cases e), fun _ => rfl, fun m => ?_⟩
    have h1m : h.identity = ({ c with auditHook := m } : container).removedID := h1
    rw [Remove_of_tombstoned h1m]
    exact ⟨rfl, rfl, rfl⟩
  · by_cases h2 : h.identity = c.identity
    · cases h3 : c.data.get h.mapKey with
      | none =>
        rw [Remove_of_absent h1 h2 h3]
        refine ⟨fun e => (by cases e), fun _ => rfl, fun m => ?_⟩
        have h1m : h.identity ≠ ({ c with auditHook := m } : container).removedID := h1
        have h2m : h.identity = ({ c with auditHook := m } : container).identity := h2
        have h3m : ({ c with auditHook := m } : container).data.get h.mapKey = none := h3
        rw [Remove_of_absent h1m h2m h3m]
        exact ⟨rfl, rfl, rfl⟩
      | some v =>
        rw [Remove_of_present h1 h2 h3]
        refine ⟨fun _ => callHook_eq_toList _ _, fun e => absurd rfl e, fun m => ?_⟩
        have h1m : h.identity ≠ ({ c with auditHook := m } : container).removedID := h1
        have h2m : h.identity = ({ c with auditHook := m } : container).identity := h2
        have h3m : ({ c with auditHook := m } : container).data.get h.mapKey = some v := h3
        rw [Remove_of_present h1m h2m h3m]
        exact ⟨rfl, rfl, rfl⟩
    · rw [Remove_of_mismatch h1 h2]
      refine ⟨fun e => (by cases e), fun _ => rfl, fun m => ?_⟩
      have h1m : h.identity ≠ ({ c with auditHook := m } : container).removedID := h1
      have h2m : h.identity ≠ ({ c with auditHook := m } : container).identity := h2
      rw [Remove_of_mismatch h1m h2m]
      exact ⟨rfl, rfl, rfl⟩

/-- Claim C12: for each of `Store`, `Fetch`, `Update` and `Remove`: when the
call succeeds, the callbacks invoked are exactly the one registered under the
operation's own name, once, or none when no callback is registered under that
name (a nil hook mapping has no entry); when the call returns an error no
callback is invoked; and replacing the hook mapping by any other one `m`, the
nil mapping included, changes neither the error, nor the key or value
returned, nor the resulting store. -/
theorem C12_audit_hooks (c : container) :
    (∀ (T : GoType) (v : GoAny) (k : String),
      ((Store T c v k).err = none →
        (Store T c v k).called = (c.auditHook.get "Store").toList) ∧
      ((Store T c v k).err ≠ none → (Store T c v k).called = []) ∧
      (c.auditHook.get "Store" = none → (Store T c v k).called = []) ∧
      (∀ m : FuncMap,
        (Store T { c with auditHook := m } v k).err = (Store T c v k).err ∧
        (Store T { c with auditHook := m } v k).key = (Store T c v k).key ∧
        (Store T { c with auditHook := m } v k).c.data = (Store T c v k).c.data)) ∧
    (∀ (T : GoType) (h : Key T),
      ((Fetch T c h).err = none →
        (Fetch T c h).called = (c.auditHook.get "Fetch").toList) ∧
      ((Fetch T c h).err ≠ none → (Fetch T c h).called = []) ∧
      (c.auditHook.get "Fetch" = none → (Fetch T c h).called = []) ∧
      (∀ m : FuncMap,
        (Fetch T { c with auditHook := m } h).err = (Fetch T c h).err ∧
        (Fetch T { c with auditHook := m } h).val = (Fetch T c h).val ∧
        (Fetch T { c with auditHook := m } h).c.data = (Fetch T c h).c.data)) ∧
    (∀ (T : GoType) (h : Key T) (w : GoAny),
      ((Update T c h w).err = none →
        (Update T c h w).called = (c.auditHook.get "Update").toList) ∧
      ((Update T c h w).err ≠ none → (Update T c h w).called = []) ∧
      (c.auditHook.get "Update" = none → (Update T c h w).called = []) ∧
      (∀ m : FuncMap,
        (Update T { c with auditHook := m } h w).err = (Update T c h w).err ∧
        (Update T { c with auditHook := m } h w).c.data = (Update T c h w).c.data)) ∧
    (∀ (T : GoType) (h : Key T),
      ((Remove T c h).err = none →
        (Remove T c h).called = (c.auditHook.get "Remove").toList) ∧
      ((Remove T c h).err ≠ none → (Remove T c h).called = []) ∧
      (c.auditHook.get "Remove" = none → (Remove T c h).called = []) ∧
      (∀ m : FuncMap,
        (Remove T { c with auditHook := m } h).err = (Remove T c h).err ∧
        (Remove T { c with auditHook := m } h).key = (Remove T c h).key ∧
        (Remove T { c with auditHook := m } h).c.data = (Remove T c h).c.data)) := by
  have key : ∀ (called : List Nat) (err : Option ThcErr) (reg : Option Nat),
      (err = none → called = reg.toList) → (err ≠ none → called = []) →
      reg = none → called = [] := by
    intro called err reg h1 h2 hreg
    subst hreg
    cases err with
    | none => exact h1 rfl
    | some e => exact h2 (by simp)
  refine ⟨fun T v k => ?_, fun T h => ?_, fun T h w => ?_, fun T h => ?_⟩
  · obtain ⟨h1, h2, h3⟩ := Store_hooks T c v k
    exact ⟨h1, h2, key _ _ _ h1 h2, h3⟩
  · obtain ⟨h1, h2, h3⟩ := Fetch_hooks T c h
    exact ⟨h1, h2, key _ _ _ h1 h2, h3⟩
  · obtain ⟨h1, h2, h3⟩ := Update_hooks T c h w
    exact ⟨h1, h2, key _ _ _ h1 h2, h3⟩
  · obtain ⟨h1, h2, h3⟩ := Remove_hooks T c h
    exact ⟨h1, h2, key _ _ _ h1 h2, h3⟩

theorem C12_audit_hooks_witness :
    (Store (.concrete .int) (NewTHC (some [("Store", 7), ("Fetch", 8)]) "id" "rid")
      (.box (.int 42)) "k").err = none ∧
    (Store (.concrete .int) (NewTHC (some [("Store", 7), ("Fetch", 8)]) "id" "rid")
      (.box (.int 42)) "k").called = [7] :=
  ⟨by decide,
   ((C12_audit_hooks (NewTHC (some [("Store", 7), ("Fetch", 8)]) "id" "rid")).1
      (.concrete .int) (.box (.int 42)) "k").1 (by decide)⟩

/-! ## `Len` and `String` (C14) -/

theorem GoMap.mem_keys_iff (m : GoMap) (k : String) :
    k ∈ m.keys ↔ (m.get k).isSome = true :=
  (getEntries_isSome_iff m.entries k).symm

/-- Claim C14: `String` is the text "Length: " followed by the base-10 digits
of `Len`, and `Len` is the number of entries of the store, which is the number
of keys under which the store holds a value; both are 0 and "Length: 0" for a
freshly constructed container. -/
theorem C14_string_is_length (c : container) :
    c.String = "Length: " ++ String.mk (Nat.toDigits 10 c.Len) ∧
    c.Len = c.data.entries.length ∧
    c.Len = c.data.keys.length ∧
    c.data.keys.Nodup ∧
    (∀ k, k ∈ c.data.keys ↔ (c.data.get k).isSome = true) ∧
    (∀ (handler : FuncMap) (id rid : String),
      (NewTHC handler id rid).Len = 0 ∧ (NewTHC handler id rid).String = "Length: 0") := by
  refine ⟨rfl, rfl, ?_, c.data.nodup, GoMap.mem_keys_iff c.data, fun _ _ _ => ⟨rfl, ?_⟩⟩
  · simp [container.Len, GoMap.len, GoMap.keys]
  · show "Length: " ++ Nat.repr 0 = "Length: 0"
    decide

/-! ## Keys in the store (C15) -/

/-- Claim C15, evaluated where the code departs from it: let `Remove(c, &h)`
succeed on a copy of a handle, so that its key is gone from the store.  Then
`Update` through the untouched copy `h`, with any value the guard lets through,
returns no error and puts the key back: the store holds a key that a successful
`Remove` has removed and no `Store` has produced since. -/
theorem C15_update_reinserts_removed_key (T : GoType) (c : container) (h : Key T) (w : GoAny)
    (hr : (Remove T c h).err = none) (hs : selfStored c w = false) :
    (Remove T c h).c.data.get h.mapKey = none ∧
    (Update T (Remove T c h).c h w).err = none ∧
    (Update T (Remove T c h).c h w).c.data.get h.mapKey = some w ∧
    (Update T (Remove T c h).c h w).c.Len = (Remove T c h).c.Len + 1 := by
  obtain ⟨h1, h2, hrid, hid, _⟩ := Remove_err_none hr
  have hgone : (Remove T c h).c.data.get h.mapKey = none := by
    cases h3 : c.data.get h.mapKey with
    | none => rw [Remove_of_absent h1 h2 h3] at hr; cases hr
    | some v =>
      rw [Remove_of_present h1 h2 h3]
      show (c.data.delete h.mapKey).get h.mapKey = none
      rw [GoMap.get_delete]; simp
  have h1r : h.identity ≠ (Remove T c h).c.removedID := by rw [hrid]; exact h1
  have h2r : h.identity = (Remove T c h).c.identity := by rw [hid]; exact h2
  have hsr : selfStored (Remove T c h).c w = false := by
    rw [selfStored_congr hid w]; exact hs
  refine ⟨hgone, ?_⟩
  rw [Update_of_owned hsr h1r h2r]
  refine ⟨rfl, GoMap.get_set_self _ _ _, ?_⟩
  show ((Remove T c h).c.data.set h.mapKey w).len = (Remove T c h).c.data.len + 1
  rw [GoMap.len_set, hgone]; simp

theorem C15_update_reinserts_removed_key_witness :
    (Remove (.concrete .int)
      (Store (.concrete .int) (NewTHC none "id" "rid") (.box (.int 1)) "k").c
      (Store (.concrete .int) (NewTHC none "id" "rid") (.box (.int 1)) "k").key).err = none ∧
    selfStored (Store (.concrete .int) (NewTHC none "id" "rid") (.box (.int 1)) "k").c
      (.box (.int 2)) = false ∧
    ((Remove (.concrete .int)
        (Store (.concrete .int) (NewTHC none "id" "rid") (.box (.int 1)) "k").c
        (Store (.concrete .int) (NewTHC none "id" "rid") (.box (.int 1)) "k").key).c.data.get
        (Store (.concrete .int) (NewTHC none "id" "rid") (.box (.int 1)) "k").key.mapKey = none ∧
     (Update (.concrete .int)
        (Remove (.concrete .int)
          (Store (.concrete .int) (NewTHC none "id" "rid") (.box (.int 1)) "k").c
          (Store (.concrete .int) (NewTHC none "id" "rid") (.box (.int 1)) "k").key).c
        (Store (.concrete .int) (NewTHC none "id" "rid") (.box (.int 1)) "k").key
        (.box (.int 2))).err = none ∧
     (Update (.concrete .int)
        (Remove (.concrete .int)
          (Store (.concrete .int) (NewTHC none "id" "rid") (.box (.int 1)) "k").c
          (Store (.concrete .int) (NewTHC none "id" "rid") (.box (.int 1)) "k").key).c
        (Store (.concrete .int) (NewTHC none "id" "rid") (.box (.int 1)) "k").key
        (.box (.int 2))).c.data.get
        (Store (.concrete .int) (NewTHC none "id" "rid") (.box (.int 1)) "k").key.mapKey =
       some (.box (.int 2)) ∧
     (Update (.concrete .int)
        (Remove (.concrete .int)
          (Store (.concrete .int) (NewTHC none "id" "rid") (.box (.int 1)) "k").c
          (Store (.concrete .int) (NewTHC none "id" "rid") (.box (.int 1)) "k").key).c
        (Store (.concrete .int) (NewTHC none "id" "rid") (.box (.int 1)) "k").key
        (.box (.int 2))).c.Len =
       (Remove (.concrete .int)
          (Store (.concrete .int) (NewTHC none "id" "rid") (.box (.int 1)) "k").c
          (Store (.concrete .int) (NewTHC none "id" "rid") (.box (.int 1)) "k").key).c.Len + 1) :=
  ⟨by decide, by decide,
   C15_update_reinserts_removed_key (.concrete .int)
     (Store (.concrete .int) (NewTHC none "id" "rid") (.box (.int 1)) "k").c
     (Store (.concrete .int) (NewTHC none "id" "rid") (.box (.int 1)) "k").key
     (.box (.int 2)) (by decide) (by decide)⟩

/-! ## Stale copy of a removed handle (C16) -/

/-- Claim C16: let `Remove(c, &h)` succeed, and let `h` also stand for the
independent copy, which the call does not touch: it still carries the identity
of the container.  On the container as `Remove` left it, `Fetch` through the
copy fails with `ErrValNotFound`, `Remove` through the copy fails with
`ErrMissingValue` and leaves the copy unchanged, neither call changes the
container, and `Fetch` through the mutated handle fails with
`ErrDeletedValue`. -/
theorem C16_stale_copy (T : GoType) (c : container) (h : Key T)
    (hr : (Remove T c h).err = none) :
    h.identity = (Remove T c h).c.identity ∧
    (Remove T c h).key ≠ h ∧
    Fetch T (Remove T c h).c h =
      { c := (Remove T c h).c, val := T.zero, err := some .ErrValNotFound, called := [] } ∧
    Remove T (Remove T c h).c h =
      { c := (Remove T c h).c, key := h, err := some .ErrMissingValue, called := [] } ∧
    Fetch T (Remove T c h).c (Remove T c h).key =
      { c := (Remove T c h).c, val := T.zero, err := some .ErrDeletedValue, called := [] } := by
  obtain ⟨h1, h2, hrid, hid, hkey⟩ := Remove_err_none hr
  have hgone : (Remove T c h).c.data.get h.mapKey = none := by
    cases h3 : c.data.get h.mapKey with
    | none => rw [Remove_of_absent h1 h2 h3] at hr; cases hr
    | some v =>
      rw [Remove_of_present h1 h2 h3]
      show (c.data.delete h.mapKey).get h.mapKey = none
      rw [GoMap.get_delete]; simp
  have h1r : h.identity ≠ (Remove T c h).c.removedID := by rw [hrid]; exact h1
  have h2r : h.identity = (Remove T c h).c.identity := by rw [hid]; exact h2
  have ht : (Remove T c h).key.identity = (Remove T c h).c.removedID := by rw [hkey, hrid]
  refine ⟨h2r, ?_, Fetch_of_absent h1r h2r hgone, Remove_of_absent h1r h2r hgone,
    Fetch_of_tombstoned ht⟩
  intro he
  rw [he] at hkey
  exact h1 hkey

theorem C16_stale_copy_witness :
    (Remove (.concrete .int)
      (Store (.concrete .int) (NewTHC none "id" "rid") (.box (.int 1)) "k").c
      (Store (.concrete .int) (NewTHC none "id" "rid") (.box (.int 1)) "k").key).err = none ∧
    (Fetch (.concrete .int)
      (Remove (.concrete .int)
        (Store (.concrete .int) (NewTHC none "id" "rid") (.box (.int 1)) "k").c
        (Store (.concrete .int) (NewTHC none "id" "rid") (.box (.int 1)) "k").key).c
      (Store (.concrete .int) (NewTHC none "id" "rid") (.box (.int 1)) "k").key).err =
      some .ErrValNotFound :=
  ⟨by decide,
   congrArg FetchResult.err
     (C16_stale_copy (.concrete .int)
       (Store (.concrete .int) (NewTHC none "id" "rid") (.box (.int 1)) "k").c
       (Store (.concrete .int) (NewTHC none "id" "rid") (.box (.int 1)) "k").key
       (by decide)).2.2.1⟩

/-! ## Handle state machine (C17) -/

/-- Claim C17: `Remove` is the one operation that is handed a key it can
assign to (`Store` takes none, `Fetch` and `Update` take theirs by value).  It
never changes `mapKey`; when it succeeds it sets the identity to
`c.removedID`, and when it returns an error it leaves the key as it was.  Once
the identity of a key equals `c.removedID`, it still does after any series of
calls on `c`, and `Remove` given that key fails with `ErrDeletedValue` and
leaves it unchanged: nothing leaves the tombstoned state. -/
theorem C17_handle_state_machine (T : GoType) (c : container) (h : Key T) :
    (Remove T c h).key.mapKey = h.mapKey ∧
    ((Remove T c h).err = none →
      (Remove T c h).key = { identity := c.removedID, mapKey := h.mapKey }) ∧
    ((Remove T c h).err ≠ none → (Remove T c h).key = h) ∧
    (h.identity = c.removedID →
      ∀ calls : List Call,
        h.identity = (runCalls c calls).removedID ∧
        Remove T (runCalls c calls) h =
          { c := runCalls c calls, key := h, err := some .ErrDeletedValue, called := [] }) := by
  refine ⟨?_, ?_, ?_, ?_⟩
  · by_cases h1 : h.identity = c.removedID
    · rw [Remove_of_tombstoned h1]
    · by_cases h2 : h.identity = c.identity
      · cases h3 : c.data.get h.mapKey with
        | none => rw [Remove_of_absent h1 h2 h3]
        | some v => rw [Remove_of_present h1 h2 h3]
      · rw [Remove_of_mismatch h1 h2]
  · intro hr
    obtain ⟨h1, h2, _, _, _⟩ := Remove_err_none hr
    cases h3 : c.data.get h.mapKey with
    | none => rw [Remove_of_absent h1 h2 h3] at hr; cases hr
    | some v => rw [Remove_of_present h1 h2 h3]
  · intro hr
    by_cases h1 : h.identity = c.removedID
    · rw [Remove_of_tombstoned h1]
    · by_cases h2 : h.identity = c.identity
      · cases h3 : c.data.get h.mapKey with
        | none => rw [Remove_of_absent h1 h2 h3]
        | some v => rw [Remove_of_present h1 h2 h3] at hr; exact absurd rfl hr
      · rw [Remove_of_mismatch h1 h2]
  · intro ht calls
    have hrid : h.identity = (runCalls c calls).removedID := by
      rw [(runCalls_tokens c calls).2]; exact ht
    exact ⟨hrid, Remove_of_tombstoned hrid⟩

theorem C17_handle_state_machine_witness :
    (⟨"rid", "k"⟩ : Key (.concrete .int)).identity = (NewTHC none "id" "rid").removedID ∧
    Remove (.concrete .int)
        (runCalls (NewTHC none "id" "rid")
          [.store (.concrete .int) (.box (.int 1)) "k",
           .update (.concrete .int) ⟨"id", "k"⟩ (.box (.int 2)),
           .remove (.concrete .int) ⟨"id", "k"⟩])
        ⟨"rid", "k"⟩ =
      { c := runCalls (NewTHC none "id" "rid")
          [.store (.concrete .int) (.box (.int 1)) "k",
           .update (.concrete .int) ⟨"id", "k"⟩ (.box (.int 2)),
           .remove (.concrete .int) ⟨"id", "k"⟩],
        key := ⟨"rid", "k"⟩, err := some .ErrDeletedValue, called := [] } :=
  ⟨by decide,
   ((C17_handle_state_machine (.concrete .int) (NewTHC none "id" "rid") ⟨"rid", "k"⟩).2.2.2
      (by decide)
      [.store (.concrete .int) (.box (.int 1)) "k",
       .update (.concrete .int) ⟨"id", "k"⟩ (.box (.int 2)),
       .remove (.concrete .int) ⟨"id", "k"⟩]).2⟩

/-! ## Isolation between handles (C18) -/

/-- Claim C18: for two keys with different map keys, an `Update` or a `Remove`
through the first, successful or not, leaves what `Fetch` through the second
returns (value, error and callbacks invoked) exactly what it was; and so does a
`Store`, whose new key differs from that of the second. -/
theorem C18_isolation (T1 T2 : GoType) (c : container) (h1 : Key T1) (h2 : Key T2)
    (hk : h1.mapKey ≠ h2.mapKey) :
    (∀ w : GoAny,
      (Fetch T2 (Update T1 c h1 w).c h2).val = (Fetch T2 c h2).val ∧
      (Fetch T2 (Update T1 c h1 w).c h2).err = (Fetch T2 c h2).err ∧
      (Fetch T2 (Update T1 c h1 w).c h2).called = (Fetch T2 c h2).called) ∧
    ((Fetch T2 (Remove T1 c h1).c h2).val = (Fetch T2 c h2).val ∧
     (Fetch T2 (Remove T1 c h1).c h2).err = (Fetch T2 c h2).err ∧
     (Fetch T2 (Remove T1 c h1).c h2).called = (Fetch T2 c h2).called) ∧
    (∀ (T : GoType) (v : GoAny) (k : String), k ≠ h2.mapKey →
      (Fetch T2 (Store T c v k).c h2).val = (Fetch T2 c h2).val ∧
      (Fetch T2 (Store T c v k).c h2).err = (Fetch T2 c h2).err ∧
      (Fetch T2 (Store T c v k).c h2).called = (Fetch T2 c h2).called) := by
  have hk' : h2.mapKey ≠ h1.mapKey := fun e => hk e.symm
  refine ⟨fun w => ?_, ?_, fun T v k hne => ?_⟩
  · obtain ⟨hi, hr, ha, hd⟩ := Update_frame T1 c h1 w
    exact Fetch_congr T2 c _ h2 hi hr ha (hd _ hk')
  · obtain ⟨hi, hr, ha, hd⟩ := Remove_frame T1 c h1
    exact Fetch_congr T2 c _ h2 hi hr ha (hd _ hk')
  · obtain ⟨hi, hr, ha, hd⟩ := Store_frame T c v k
    exact Fetch_congr T2 c _ h2 hi hr ha (hd _ (fun e => hne e.symm))

theorem C18_isolation_witness :
    (⟨"id", "k1"⟩ : Key (.concrete .int)).mapKey ≠ (⟨"id", "k2"⟩ : Key (.concrete .string)).mapKey ∧
    (Fetch (.concrete .string)
      (Remove (.concrete .int)
        (runCalls (NewTHC none "id" "rid")
          [.store (.concrete .int) (.box (.int 1)) "k1",
           .store (.concrete .string) (.box (.str "x")) "k2"])
        ⟨"id", "k1"⟩).c
      ⟨"id", "k2"⟩).val =
    (Fetch (.concrete .string)
      (runCalls (NewTHC none "id" "rid")
        [.store (.concrete .int) (.box (.int 1)) "k1",
         .store (.concrete .string) (.box (.str "x")) "k2"])
      ⟨"id", "k2"⟩).val :=
  ⟨by decide,
   (C18_isolation (.concrete .int) (.concrete .string)
      (runCalls (NewTHC none "id" "rid")
        [.store (.concrete .int) (.box (.int 1)) "k1",
         .store (.concrete .string) (.box (.str "x")) "k2"])
      ⟨"id", "k1"⟩ ⟨"id", "k2"⟩ (by decide)).2.1.1⟩

/-! ## Token invariant (C19) -/

/-- Claim C19: no call of `Store`, `Fetch`, `Update`, `Remove`, `Len` or
`String` changes the identity or the removed-identity of a container, nor does
any series of such calls; so when construction yields two distinct tokens they
are distinct in every state the container reaches. -/
theorem C19_tokens_never_change (c : container) :
    (∀ call : Call,
      (call.run c).identity = c.identity ∧ (call.run c).removedID = c.removedID) ∧
    (∀ calls : List Call,
      (runCalls c calls).identity = c.identity ∧
      (runCalls c calls).removedID = c.removedID) ∧
    (∀ (handler : FuncMap) (id rid : String) (calls : List Call), id ≠ rid →
      (runCalls (NewTHC handler id rid) calls).identity ≠
        (runCalls (NewTHC handler id rid) calls).removedID) := by
  refine ⟨Call.run_tokens c, runCalls_tokens c, fun handler id rid calls hne => ?_⟩
  obtain ⟨h1, h2⟩ := runCalls_tokens (NewTHC handler id rid) calls
  rw [h1, h2]
  exact hne

theorem C19_tokens_never_change_witness :
    "id" ≠ "rid" ∧
    (runCalls (NewTHC none "id" "rid")
      [.store (.concrete .int) (.box (.int 1)) "k", .len,
       .remove (.concrete .int) ⟨"id", "k"⟩, .string]).identity ≠
    (runCalls (NewTHC none "id" "rid")
      [.store (.concrete .int) (.box (.int 1)) "k", .len,
       .remove (.concrete .int) ⟨"id", "k"⟩, .string]).removedID :=
  ⟨by decide,
   (C19_tokens_never_change (NewTHC none "id" "rid")).2.2 none "id" "rid"
     [.store (.concrete .int) (.box (.int 1)) "k", .len,
      .remove (.concrete .int) ⟨"id", "k"⟩, .string] (by decide)⟩

/-! ## `Fetch` and `Len` only read (C20) -/

/-- Claim C20: a `Fetch` call, successful or not, returns the container (store,
tokens and hooks) as it received it, and it receives its key by value; so a
second `Fetch` with the same key returns the same result as the first, and
`Len` is the same number before and after.  `Len` itself leaves the container
as it is. -/
theorem C20_fetch_and_len_read_only (T : GoType) (c : container) (h : Key T) :
    (Fetch T c h).c = c ∧
    Fetch T (Fetch T c h).c h = Fetch T c h ∧
    (Fetch T c h).c.Len = c.Len ∧
    Call.run c .len = c ∧
    (Call.run c .len).Len = c.Len := by
  refine ⟨Fetch_container T c h, ?_, ?_, rfl, rfl⟩
  · rw [Fetch_container]
  · rw [Fetch_container]

end thc
